import Mathlib

/-!
# Sojourn: terrain streaming, player physics and the per-tick driver

A shallow embedding of `src/main.h` and `src/main.cpp`.

* `qreal`/`float` values are modelled by exact rationals `ℚ`.
* Qt and standard-library services the program calls but does not define
  (arctangent, the global random generator, `std::shuffle`, item collision
  detection) are fields of `Platform`; every theorem holds for all platforms.
* Mutable objects are explicit values: `TerrainManager`, `Player`, `Session`.
-/

namespace Sojourn

/-! ## Constants (`main.h`, lines 12-19) -/

/-- Source constant `const int SCREEN_WIDTH = 1280`. -/
def SCREEN_WIDTH : ℚ := 1280

/-- Source constant `const int SCREEN_HEIGHT = 720`. -/
def SCREEN_HEIGHT : ℚ := 720

/-- Source constant `const float PLAYER_SIZE = 40.0f`. -/
def PLAYER_SIZE : ℚ := 40

/-- Source constant `const float GRAVITY = 0.5f`. -/
def GRAVITY : ℚ := 1 / 2

/-- Source constant `const float JUMP_FORCE = -15.0f`. -/
def JUMP_FORCE : ℚ := -15

/-- Source constant `const float PLAYER_SPEED = 5.0f`. -/
def PLAYER_SPEED : ℚ := 5

/-- Source constant `const float FLIP_SPEED = 7.0f`. -/
def FLIP_SPEED : ℚ := 7

/-! ## PerlinNoise (`main.h`, lines 46-67) -/

/-- The 512-entry table `p` of `PerlinNoise`. -/
structure PerlinNoise where
  p : List Nat
  deriving DecidableEq, Repr

namespace PerlinNoise

/-- Embeds `fade(t) = t * t * t * (t * (t * 6 - 15) + 10)`. -/
def fade (t : ℚ) : ℚ := t * t * t * (t * (t * 6 - 15) + 10)

/-- Embeds `lerp(t, a, b) = a + t * (b - a)`. -/
def lerp (t a b : ℚ) : ℚ := a + t * (b - a)

/-- Embeds `grad(hash, x) = (hash & 1) == 0 ? x : -x`. -/
def grad (hash : Nat) (x : ℚ) : ℚ := if hash &&& 1 = 0 then x else -x

/-- Table lookup `p[i]`; the program never indexes outside the 512 entries. -/
def get (n : PerlinNoise) (i : Nat) : Nat := n.p.getD i 0

/-- Embeds `noise(x)`: `(int)floor(x) & 255` is the residue of `floor(x)` modulo 256. -/
def noise (n : PerlinNoise) (x : ℚ) : ℚ :=
  let X : Nat := (⌊x⌋ % 256).toNat
  let x := x - ⌊x⌋
  let u := fade x
  let A := n.get X
  let B := n.get (X + 1)
  lerp u (grad (n.get A) x) (grad (n.get B) (x - 1)) * 2

end PerlinNoise

/-! ## Obstacle (`main.h` lines 37-41, `main.cpp` lines 4-40) -/

/-- A `QGraphicsPixmapItem` carrying the rock pixmap: scene position, pixmap
offset and pixmap size. -/
structure Obstacle where
  posX : ℚ
  posY : ℚ
  offsetX : ℚ
  offsetY : ℚ
  width : ℚ
  height : ℚ
  deriving DecidableEq, Repr

/-- Side of the square rock pixmap (`int size = 40` in `createRockPixmap`). -/
def rockPixmapSize : ℚ := 40

/-- Embeds `Obstacle::Obstacle(x, y)`: `setPos(x, y - height / 2)` and
`setOffset(-width / 2, -height / 2)`. -/
def Obstacle.new (x y : ℚ) : Obstacle :=
  { posX := x
    posY := y - rockPixmapSize / 2
    offsetX := -rockPixmapSize / 2
    offsetY := -rockPixmapSize / 2
    width := rockPixmapSize
    height := rockPixmapSize }

/-- Right edge of `QGraphicsPixmapItem::boundingRect()`, the rectangle
`QRectF(offset, pixmap.size())` in the item's own coordinates. -/
def Obstacle.boundingRectRight (o : Obstacle) : ℚ := o.offsetX + o.width

/-- Right edge of the obstacle in scene (world) coordinates: the bounding
rectangle translated by the item position. -/
def Obstacle.sceneRight (o : Obstacle) : ℚ := o.posX + o.boundingRectRight

/-! ## Player state (`main.h` lines 254-289, `main.cpp` lines 167-177) -/

/-- The physics-relevant members of `Player`: item position and rotation plus
the private fields. -/
structure Player where
  x : ℚ
  y : ℚ
  rotation : ℚ
  velocityY : ℚ
  onGround : Bool
  m_isDead : Bool
  m_isFlipping : Bool
  deriving DecidableEq, Repr

/-- Embeds `Player::Player()`: position `(SCREEN_WIDTH / 4, SCREEN_HEIGHT / 2)`. -/
def Player.new : Player :=
  { x := SCREEN_WIDTH / 4
    y := SCREEN_HEIGHT / 2
    rotation := 0
    velocityY := 0
    onGround := false
    m_isDead := false
    m_isFlipping := false }

/-- Embeds `Player::die()`. -/
def Player.die (s : Player) : Player := { s with m_isDead := true }

/-- Embeds `Player::isDead()`. -/
def Player.isDead (s : Player) : Bool := s.m_isDead

/-- Embeds `Player::jump()`. -/
def Player.jump (s : Player) : Player :=
  if s.onGround && !s.m_isDead then
    { s with velocityY := JUMP_FORCE, onGround := false }
  else s

/-- Embeds `Player::startFlip()`. -/
def Player.startFlip (s : Player) : Player :=
  if !s.onGround && !s.m_isDead then { s with m_isFlipping := true } else s

/-- Embeds `Player::endFlip()`. -/
def Player.endFlip (s : Player) : Player := { s with m_isFlipping := false }

/-! ## Platform services -/

/-- Library behaviour the program relies on but does not define. -/
structure Platform where
  /-- The value of `qRadiansToDegrees(qAtan2(y, x))`. -/
  qAtan2Deg : ℚ → ℚ → ℚ
  /-- The value `QRandomGenerator::global()->generate()` returns when it is the
  `n`-th draw from the global generator. -/
  generate : Nat → Nat
  /-- The value `QRandomGenerator::global()->bounded(k)` returns when it is the
  `n`-th draw from the global generator. -/
  bounded : Nat → Nat → Nat
  /-- The order `std::shuffle` gives a list under `std::default_random_engine(seed)`. -/
  shuffle : Nat → List Nat → List Nat
  /-- Whether `collidingItems()` of the player item reports the obstacle item. -/
  collides : Player → Obstacle → Bool

/-! ## TerrainManager (`main.h`, lines 161-250) -/

/-- A terrain segment: the polygon handed to `QGraphicsScene::addPolygon`. The
item stays at scene position `(0, 0)`, so its polygon is in world coordinates. -/
structure Segment where
  polygon : List (ℚ × ℚ)
  deriving DecidableEq, Repr

/-- Largest x among the polygon points: the right edge of
`QPolygonF::boundingRect()`, which is the item's `boundingRect()` under
`Qt::NoPen` (the empty polygon has the rectangle `(0, 0, 0, 0)`). -/
def Segment.boundingRectRight (s : Segment) : ℚ :=
  match s.polygon with
  | [] => 0
  | pt :: rest => rest.foldl (fun m q => max m q.1) pt.1

/-- Smallest x among the polygon points: the left edge of the bounding
rectangle. -/
def Segment.boundingRectLeft (s : Segment) : ℚ :=
  match s.polygon with
  | [] => 0
  | pt :: rest => rest.foldl (fun m q => min m q.1) pt.1

/-- The state of a `TerrainManager`. `rngDraws` counts the values drawn so far
from `QRandomGenerator::global()`. -/
structure TerrainManager where
  m_segments : List Segment
  m_obstacles : List Obstacle
  m_currentX : ℚ
  m_perlin : PerlinNoise
  rngDraws : Nat
  deriving DecidableEq, Repr

/-- Source constant `m_segmentLength = 50`, set once in the constructor. -/
def m_segmentLength : ℚ := 50

/-- Source constant `m_amplitude = 150`, set once in the constructor. -/
def m_amplitude : ℚ := 150

/-- Source constant `m_frequency = 0.005`, set once in the constructor. -/
def m_frequency : ℚ := 5 / 1000

namespace TerrainManager

/-- Embeds `getGroundHeight(x)`. -/
def getGroundHeight (t : TerrainManager) (x : ℚ) : ℚ :=
  SCREEN_HEIGHT * (7 / 10) + t.m_perlin.noise (x * m_frequency) * m_amplitude

/-- Embeds `getGroundSlope(x)`. -/
def getGroundSlope (env : Platform) (t : TerrainManager) (x : ℚ) : ℚ :=
  let y1 := t.getGroundHeight (x - 1)
  let y2 := t.getGroundHeight (x + 1)
  env.qAtan2Deg (y2 - y1) 2

/-- Embeds `spawnObstacle(x, y)`. -/
def spawnObstacle (t : TerrainManager) (x y : ℚ) : TerrainManager :=
  { t with m_obstacles := t.m_obstacles ++ [Obstacle.new x y] }

/-- The polygon built by `generateSegment` for a segment starting at `cx`. -/
def segmentPolygon (t : TerrainManager) (cx : ℚ) : List (ℚ × ℚ) :=
  let segments : Nat := 10
  (cx, SCREEN_HEIGHT)
    :: ((List.range (segments + 1)).map (fun (i : Nat) =>
          let newX := cx + (i : ℚ) * m_segmentLength / segments
          (newX, t.getGroundHeight newX))
        ++ [(cx + m_segmentLength, SCREEN_HEIGHT)])

/-- Embeds `generateSegment()`. The random trial is drawn only when the slope test
succeeds (short-circuit `&&`). -/
def generateSegment (env : Platform) (t : TerrainManager) : TerrainManager :=
  let polygon := segmentPolygon t t.m_currentX
  let slope := getGroundSlope env t (t.m_currentX + m_segmentLength / 2)
  let t1 :=
    if |slope| < 10 then
      let t0 := { t with rngDraws := t.rngDraws + 1 }
      if env.bounded t.rngDraws 100 < 50 then
        t0.spawnObstacle (t.m_currentX + m_segmentLength / 2)
          (t.getGroundHeight (t.m_currentX + m_segmentLength / 2))
      else t0
    else t
  { t1 with
    m_currentX := t.m_currentX + m_segmentLength
    m_segments := t1.m_segments ++ [⟨polygon⟩] }

/-- Number of iterations of `for (int i = 0; i < SCREEN_WIDTH * 2 / m_segmentLength; ++i)`:
the integers `i ≥ 0` below the bound `2560 / 50`. -/
def constructorIterations : Nat := ⌈SCREEN_WIDTH * 2 / m_segmentLength⌉.toNat

/-- Embeds `TerrainManager::TerrainManager(scene)` when `draws` values have already
been drawn from the global generator: the seed is the next draw. -/
def new (env : Platform) (draws : Nat) : TerrainManager :=
  let shuffled := env.shuffle (env.generate draws) (List.range 256)
  let t0 : TerrainManager :=
    { m_segments := []
      m_obstacles := []
      m_currentX := -SCREEN_WIDTH
      m_perlin := ⟨shuffled ++ shuffled⟩
      rngDraws := draws + 1 }
  (generateSegment env)^[constructorIterations] t0

/-- First loop of `update`: `while (playerX > m_currentX - SCREEN_WIDTH) generateSegment();`. -/
def generateLoop (env : Platform) (playerX : ℚ) (t : TerrainManager) : TerrainManager :=
  if playerX > t.m_currentX - SCREEN_WIDTH then
    generateLoop env playerX (generateSegment env t)
  else t
termination_by ⌈(playerX + SCREEN_WIDTH - t.m_currentX) / m_segmentLength⌉.toNat
decreasing_by
  rename_i h
  have hx : (generateSegment env t).m_currentX = t.m_currentX + m_segmentLength := by
    unfold generateSegment
    rfl
  rw [hx]
  have hpos : 0 < (playerX + SCREEN_WIDTH - t.m_currentX) / m_segmentLength := by
    apply div_pos
    · linarith
    · norm_num [m_segmentLength]
  have hstep : (playerX + SCREEN_WIDTH - (t.m_currentX + m_segmentLength)) / m_segmentLength
      = (playerX + SCREEN_WIDTH - t.m_currentX) / m_segmentLength - 1 := by
    norm_num [m_segmentLength]
    ring
  rw [hstep, Int.ceil_sub_one]
  have hc : 0 < ⌈(playerX + SCREEN_WIDTH - t.m_currentX) / m_segmentLength⌉ := Int.ceil_pos.mpr hpos
  omega

/-- Second loop of `update`: remove leading segments whose right edge is
behind `playerX - SCREEN_WIDTH * 1.5`. -/
def evictSegments (playerX : ℚ) : List Segment → List Segment
  | [] => []
  | s :: rest =>
    if s.boundingRectRight < playerX - SCREEN_WIDTH * (3 / 2) then
      evictSegments playerX rest
    else s :: rest

/-- Third loop of `update`: remove leading obstacles whose `boundingRect().right()`
is behind `playerX - SCREEN_WIDTH * 1.5`. -/
def evictObstacles (playerX : ℚ) : List Obstacle → List Obstacle
  | [] => []
  | o :: rest =>
    if o.boundingRectRight < playerX - SCREEN_WIDTH * (3 / 2) then
      evictObstacles playerX rest
    else o :: rest

/-- Embeds `update(playerX)`. -/
def update (env : Platform) (playerX : ℚ) (t : TerrainManager) : TerrainManager :=
  let t1 := generateLoop env playerX t
  let t2 := { t1 with m_segments := evictSegments playerX t1.m_segments }
  { t2 with m_obstacles := evictObstacles playerX t2.m_obstacles }

end TerrainManager

/-! ## Player physics (`main.cpp`, lines 180-246) -/

/-- The loop `while (landingAngle > 180) landingAngle -= 360;`. -/
def normalizeDown (a : ℚ) : ℚ :=
  if a > 180 then normalizeDown (a - 360) else a
termination_by ⌈(a - 180) / 360⌉.toNat
decreasing_by
  rename_i h
  have hpos : 0 < (a - 180) / 360 := by
    apply div_pos
    · linarith
    · norm_num
  have hstep : (a - 360 - 180) / 360 = (a - 180) / 360 - 1 := by ring
  rw [hstep, Int.ceil_sub_one]
  have hc : 0 < ⌈(a - 180) / 360⌉ := Int.ceil_pos.mpr hpos
  omega

/-- The loop `while (landingAngle < -180) landingAngle += 360;`. -/
def normalizeUp (a : ℚ) : ℚ :=
  if a < -180 then normalizeUp (a + 360) else a
termination_by ⌈(-180 - a) / 360⌉.toNat
decreasing_by
  rename_i h
  have hpos : 0 < (-180 - a) / 360 := by
    apply div_pos
    · linarith
    · norm_num
  have hstep : (-180 - (a + 360)) / 360 = (-180 - a) / 360 - 1 := by ring
  rw [hstep, Int.ceil_sub_one]
  have hc : 0 < ⌈(-180 - a) / 360⌉ := Int.ceil_pos.mpr hpos
  omega

/-- The landing angle: the rotation after both normalisation loops. -/
def landingAngle (rot : ℚ) : ℚ := normalizeUp (normalizeDown rot)

/-- Whether the loop over `collidingItems()` meets an `Obstacle`; `scene` lists
the obstacle items of the scene. -/
def hitsObstacle (env : Platform) (s : Player) : List Obstacle → Bool
  | [] => false
  | o :: rest => if env.collides s o then true else hitsObstacle env s rest

/-- Embeds `Player::updatePhysics()`. `scene` lists the obstacle items of the scene
and `m_terrain` is the terrain pointer (`none` for `nullptr`). -/
def Player.updatePhysics (env : Platform) (scene : List Obstacle)
    (m_terrain : Option TerrainManager) (s : Player) : Player :=
  if s.m_isDead then s
  else if hitsObstacle env s scene then s.die
  else
    match m_terrain with
    | none => s
    | some t =>
      let velocityY := s.velocityY + GRAVITY
      let x := s.x + PLAYER_SPEED
      let y := s.y + velocityY
      let groundY := t.getGroundHeight x
      let groundSlope := t.getGroundSlope env x
      let wasInAir := !s.onGround
      if y + PLAYER_SIZE / 2 ≥ groundY - 5 then
        let s1 : Player :=
          { s with x := x, y := groundY - PLAYER_SIZE / 2, velocityY := 0, onGround := true }
        if wasInAir && decide (|landingAngle s1.rotation| > 90) then s1.die
        else { s1 with rotation := s1.rotation * (9 / 10) + groundSlope * (1 / 10) }
      else
        let s1 : Player := { s with x := x, y := y, velocityY := velocityY, onGround := false }
        if s1.m_isFlipping then { s1 with rotation := s1.rotation + FLIP_SPEED }
        else if s1.rotation > 1 ∨ s1.rotation < -1 then
          { s1 with rotation := s1.rotation * (95 / 100) }
        else s1

/-- A command or physics step applied to the player. -/
inductive PlayerOp where
  | updatePhysics (env : Platform) (scene : List Obstacle) (m_terrain : Option TerrainManager)
  | jump
  | startFlip
  | endFlip

/-- Apply one operation. -/
def PlayerOp.apply : PlayerOp → Player → Player
  | .updatePhysics env scene m_terrain, s => s.updatePhysics env scene m_terrain
  | .jump, s => s.jump
  | .startFlip, s => s.startFlip
  | .endFlip, s => s.endFlip

/-- Apply a sequence of operations, first to last. -/
def applyOps (ops : List PlayerOp) (s : Player) : Player :=
  ops.foldl (fun acc op => op.apply acc) s

/-! ## Game session (`main.h` lines 29-32 and 294-321, `main.cpp` lines 274-351) -/

/-- The type `enum GameState`. -/
inductive GameState where
  | Playing
  | GameOver
  deriving DecidableEq, Repr

/-- The objects the game loop works on: `view.gameState`, `terrain`, `player`. -/
structure Session where
  gameState : GameState
  terrain : TerrainManager
  player : Player
  deriving DecidableEq, Repr

/-- Embeds `setupGame` together with the `GameView` constructor: a fresh terrain, a
fresh player wired to it, state `Playing`. -/
def setupGame (env : Platform) (draws : Nat) : Session :=
  { gameState := GameState.Playing
    terrain := TerrainManager.new env draws
    player := Player.new }

/-- One firing of the `gameLoop` timer. `scene.advance()` runs
`Player::advance` for phase 0 (nothing) and phase 1 (`updatePhysics`); the
obstacle items of the scene are the terrain's resident obstacles. -/
def tick (env : Platform) (g : Session) : Session :=
  match g.gameState with
  | GameState.GameOver => g
  | GameState.Playing =>
    if g.player.isDead then { g with gameState := GameState.GameOver }
    else
      let terrain := g.terrain.update env g.player.x
      let player := g.player.updatePhysics env terrain.m_obstacles (some terrain)
      { g with terrain := terrain, player := player }

/-- Input and timer events reaching the game. -/
inductive Event where
  | timeout
  | spacePressed
  | spaceReleased
  | rPressed
  deriving DecidableEq, Repr

/-- The effect of one event: the timer lambda, `keyPressEvent`,
`keyReleaseEvent` and the `restartGame` lambda. -/
def step (env : Platform) (g : Session) : Event → Session
  | .timeout => tick env g
  | .spacePressed =>
    match g.gameState with
    | GameState.Playing => { g with player := g.player.jump.startFlip }
    | GameState.GameOver => g
  | .spaceReleased =>
    match g.gameState with
    | GameState.Playing => { g with player := g.player.endFlip }
    | GameState.GameOver => g
  | .rPressed =>
    match g.gameState with
    | GameState.Playing => g
    | GameState.GameOver => setupGame env g.terrain.rngDraws

/-- Sessions reachable from the initial setup (after any number of earlier
draws from the global generator) by events. -/
inductive Reachable (env : Platform) : Session → Prop where
  | init (draws : Nat) : Reachable env (setupGame env draws)
  | next (g : Session) (e : Event) : Reachable env g → Reachable env (step env g e)

/-! ## Reachable terrain states and window predicates -/

/-- Terrain states reachable from construction by `update` calls. -/
inductive TerrainManager.Reachable (env : Platform) : TerrainManager → Prop where
  | init (draws : Nat) : TerrainManager.Reachable env (TerrainManager.new env draws)
  | update (t : TerrainManager) (playerX : ℚ) :
      TerrainManager.Reachable env t → TerrainManager.Reachable env (t.update env playerX)

/-- Terrain states reached by construction followed by one or more `update`
calls whose `playerX` starts at the spawn x 320 and never decreases; the
index is the most recent `playerX`. -/
inductive TerrainManager.ReachedAt (env : Platform) : TerrainManager → ℚ → Prop where
  | first (draws : Nat) :
      TerrainManager.ReachedAt env ((TerrainManager.new env draws).update env 320) 320
  | next (t : TerrainManager) (p q : ℚ) :
      TerrainManager.ReachedAt env t p → p ≤ q →
      TerrainManager.ReachedAt env (t.update env q) q

/-- The union of the x-ranges of the resident segments contains `[lo, hi]`. -/
def TerrainManager.covers (t : TerrainManager) (lo hi : ℚ) : Prop :=
  ∀ x : ℚ, lo ≤ x → x ≤ hi →
    ∃ s ∈ t.m_segments, s.boundingRectLeft ≤ x ∧ x ≤ s.boundingRectRight

/-- The segments are ordered by increasing x, each starts where its
predecessor ends, and each is 50 wide. -/
def TerrainManager.contiguous (t : TerrainManager) : Prop :=
  List.Pairwise (fun a b : Segment => a.boundingRectLeft < b.boundingRectLeft) t.m_segments ∧
  List.Chain' (fun a b : Segment => b.boundingRectLeft = a.boundingRectRight) t.m_segments ∧
  ∀ s ∈ t.m_segments, s.boundingRectRight = s.boundingRectLeft + 50

/-- The segments form a gap-free chain of 50-wide pieces from `a` to `b`. -/
def chainFrom : ℚ → List Segment → ℚ → Prop
  | a, [], b => a = b
  | a, s :: rest, b =>
    s.boundingRectLeft = a ∧ s.boundingRectRight = a + 50 ∧ chainFrom (a + 50) rest b

/-! ## Sample values used to instantiate the theorems -/

/-- A rational stand-in for the arctangent in degrees, `atan z ≈ z / (1 + 0.28 z²)`. -/
def sampleAtan2Deg (y x : ℚ) : ℚ :=
  if x = 0 then 0 else (y / x) / (1 + 28 / 100 * (y / x) ^ 2) * (180 * 113 / 355)

/-- Axis-aligned overlap of the 40-wide player square and the obstacle rectangle. -/
def sampleCollides (s : Player) (o : Obstacle) : Bool :=
  decide (|s.x - o.posX| < 40 ∧ |s.y - o.posY| < 40)

/-- An airborne, living player low on the screen, upside down. -/
def landingPlayer : Player :=
  { x := 320
    y := 700
    rotation := 200
    velocityY := 0
    onGround := false
    m_isDead := false
    m_isFlipping := false }

/-- A player that died on the ground while the flip control was held. -/
def deadPlayer : Player :=
  { x := 320
    y := 500
    rotation := 120
    velocityY := 0
    onGround := true
    m_isDead := true
    m_isFlipping := true }

/-- A living player standing on the ground. -/
def groundedPlayer : Player :=
  { x := 320
    y := 480
    rotation := 3
    velocityY := 0
    onGround := true
    m_isDead := false
    m_isFlipping := false }

/-- A concrete platform: the shuffle puts the even entries before the odd
ones, every random draw is 0. -/
def samplePlatform : Platform :=
  { qAtan2Deg := sampleAtan2Deg
    generate := fun _ => 0
    bounded := fun _ _ => 0
    shuffle := fun _ l => l.filter (fun n => n % 2 = 0) ++ l.filter (fun n => n % 2 = 1)
    collides := sampleCollides }

/-- The rock that the sample terrain grows on the segment `[2020, 2070]`. -/
def rockAhead : Obstacle :=
  Obstacle.new 2045 ((TerrainManager.new samplePlatform 0).getGroundHeight 2045)

/-! ## Player commands -/

/-- C1. `jump` takes effect exactly on a grounded, living player: there it sets
`velocityY` to `JUMP_FORCE = -15` and clears `onGround`; in every other state
`velocityY` and `onGround` keep their values. Position, rotation, `m_isDead`
and `m_isFlipping` never change, and a second `jump` right after the first
changes nothing. -/
theorem jump_contract (s : Player) :
    (s.onGround = true ∧ s.m_isDead = false →
      s.jump.velocityY = JUMP_FORCE ∧ JUMP_FORCE = -15 ∧ s.jump.onGround = false) ∧
    (¬ (s.onGround = true ∧ s.m_isDead = false) →
      s.jump.velocityY = s.velocityY ∧ s.jump.onGround = s.onGround) ∧
    s.jump.x = s.x ∧ s.jump.y = s.y ∧ s.jump.rotation = s.rotation ∧
    s.jump.m_isDead = s.m_isDead ∧ s.jump.m_isFlipping = s.m_isFlipping ∧
    s.jump.jump = s.jump := by
  rcases s with ⟨x, y, rot, vy, g, d, f⟩
  cases g <;> cases d <;> simp [Player.jump, JUMP_FORCE]

/-- C1 at a concrete input: a grounded, living player jumps. -/
theorem jump_contract_witness :
    (groundedPlayer.onGround = true ∧ groundedPlayer.m_isDead = false) ∧
    groundedPlayer.jump.velocityY = JUMP_FORCE ∧ JUMP_FORCE = -15 ∧
    groundedPlayer.jump.onGround = false :=
  ⟨⟨rfl, rfl⟩, (jump_contract groundedPlayer).1 ⟨rfl, rfl⟩⟩

/-- C10. `startFlip` sets `m_isFlipping` exactly when the player is airborne
and alive, and otherwise returns the state as it was; `endFlip` clears
`m_isFlipping` from every state and is idempotent; neither touches position,
`velocityY`, rotation, `onGround` or `m_isDead`. -/
theorem flip_contract (s : Player) :
    (s.onGround = false ∧ s.m_isDead = false → s.startFlip = { s with m_isFlipping := true }) ∧
    (¬ (s.onGround = false ∧ s.m_isDead = false) → s.startFlip = s) ∧
    (s.m_isFlipping = false →
      (s.startFlip.m_isFlipping = true ↔ (s.onGround = false ∧ s.m_isDead = false))) ∧
    s.endFlip.m_isFlipping = false ∧
    s.endFlip.endFlip = s.endFlip ∧
    (s.startFlip.x = s.x ∧ s.startFlip.y = s.y ∧ s.startFlip.velocityY = s.velocityY ∧
      s.startFlip.rotation = s.rotation ∧ s.startFlip.onGround = s.onGround ∧
      s.startFlip.m_isDead = s.m_isDead) ∧
    (s.endFlip.x = s.x ∧ s.endFlip.y = s.y ∧ s.endFlip.velocityY = s.velocityY ∧
      s.endFlip.rotation = s.rotation ∧ s.endFlip.onGround = s.onGround ∧
      s.endFlip.m_isDead = s.m_isDead) := by
  rcases s with ⟨x, y, rot, vy, g, d, f⟩
  cases g <;> cases d <;> cases f <;> simp [Player.startFlip, Player.endFlip]

/-- C10 at a concrete input: the fresh (airborne, living) player starts a flip. -/
theorem flip_contract_witness :
    (Player.new.onGround = false ∧ Player.new.m_isDead = false) ∧
    Player.new.startFlip = { Player.new with m_isFlipping := true } :=
  ⟨⟨rfl, rfl⟩, (flip_contract Player.new).1 ⟨rfl, rfl⟩⟩

/-! ## Obstacle collision -/

/-- The collision loop reports a hit when some obstacle of the scene collides. -/
theorem hitsObstacle_of_mem (env : Platform) (s : Player) (scene : List Obstacle)
    (o : Obstacle) (ho : o ∈ scene) (hc : env.collides s o = true) :
    hitsObstacle env s scene = true := by
  induction scene with
  | nil => cases ho
  | cons a rest ih =>
    unfold hitsObstacle
    by_cases ha : env.collides s a = true
    · simp [ha]
    · rcases List.mem_cons.mp ho with rfl | hmem
      · exact absurd hc ha
      · simp [ha, ih hmem]

/-- C2. When a living player collides with some obstacle of the scene,
`updatePhysics` only sets `m_isDead`: position, `velocityY`, rotation,
`onGround` and `m_isFlipping` are as before, for every terrain (also none). -/
theorem collision_priority (env : Platform) (scene : List Obstacle)
    (m_terrain : Option TerrainManager) (s : Player) (o : Obstacle)
    (halive : s.m_isDead = false) (ho : o ∈ scene) (hc : env.collides s o = true) :
    s.updatePhysics env scene m_terrain = { s with m_isDead := true } := by
  unfold Player.updatePhysics
  simp [halive, hitsObstacle_of_mem env s scene o ho hc, Player.die]

/-- C2 at a concrete input: a fresh player standing on a rock. -/
theorem collision_priority_witness :
    Player.new.m_isDead = false ∧
    Obstacle.new 320 380 ∈ [Obstacle.new 100 400, Obstacle.new 320 380] ∧
    samplePlatform.collides Player.new (Obstacle.new 320 380) = true ∧
    Player.new.updatePhysics samplePlatform [Obstacle.new 100 400, Obstacle.new 320 380] none
      = { Player.new with m_isDead := true } :=
  have hc : samplePlatform.collides Player.new (Obstacle.new 320 380) = true := by
    norm_num [samplePlatform, sampleCollides, Player.new, Obstacle.new, SCREEN_WIDTH,
      SCREEN_HEIGHT, rockPixmapSize]
  ⟨rfl, by simp, hc,
    collision_priority samplePlatform _ none Player.new (Obstacle.new 320 380) rfl (by simp) hc⟩

/-! ## Dead is terminal -/

/-- Every operation maps a dead player to a dead player with the same position,
velocity and rotation. -/
theorem PlayerOp.apply_dead (op : PlayerOp) (s : Player) (h : s.m_isDead = true) :
    (op.apply s).m_isDead = true ∧ (op.apply s).x = s.x ∧ (op.apply s).y = s.y ∧
    (op.apply s).velocityY = s.velocityY ∧ (op.apply s).rotation = s.rotation := by
  cases op <;> simp [PlayerOp.apply, Player.updatePhysics, Player.jump, Player.startFlip,
    Player.endFlip, h]

/-- A sequence of operations keeps a dead player dead and in place. -/
theorem applyOps_dead (ops : List PlayerOp) (s : Player) (h : s.m_isDead = true) :
    (applyOps ops s).m_isDead = true ∧ (applyOps ops s).x = s.x ∧ (applyOps ops s).y = s.y ∧
    (applyOps ops s).velocityY = s.velocityY ∧ (applyOps ops s).rotation = s.rotation := by
  induction ops generalizing s with
  | nil => simp [applyOps, h]
  | cons op rest ih =>
    obtain ⟨hd, hx, hy, hv, hr⟩ := PlayerOp.apply_dead op s h
    have := ih (op.apply s) hd
    simp only [applyOps, List.foldl_cons] at this ⊢
    rw [hx, hy, hv, hr] at this
    exact this

/-- C4. On a dead player `updatePhysics` (any scene, any terrain), `jump` and
`startFlip` return the state unchanged and `endFlip` changes at most
`m_isFlipping`; so after any sequence of these operations the player is still
dead with the position, velocity and rotation it died with. -/
theorem dead_is_terminal (s : Player) (h : s.m_isDead = true) :
    (∀ env scene m_terrain, s.updatePhysics env scene m_terrain = s) ∧
    s.jump = s ∧ s.startFlip = s ∧
    s.endFlip = { s with m_isFlipping := false } ∧
    ∀ ops : List PlayerOp,
      (applyOps ops s).m_isDead = true ∧ (applyOps ops s).x = s.x ∧
      (applyOps ops s).y = s.y ∧ (applyOps ops s).velocityY = s.velocityY ∧
      (applyOps ops s).rotation = s.rotation := by
  refine ⟨?_, ?_, ?_, rfl, fun ops => applyOps_dead ops s h⟩
  · intro env scene m_terrain
    simp [Player.updatePhysics, h]
  · simp [Player.jump, h]
  · simp [Player.startFlip, h]

/-- C4 at a concrete input: a player that died while flipping on the ground. -/
theorem dead_is_terminal_witness :
    deadPlayer.m_isDead = true ∧ deadPlayer.jump = deadPlayer ∧
    deadPlayer.startFlip = deadPlayer ∧
    (applyOps [PlayerOp.jump, PlayerOp.updatePhysics samplePlatform [] none, PlayerOp.endFlip,
      PlayerOp.startFlip] deadPlayer).x = deadPlayer.x :=
  have h := dead_is_terminal deadPlayer rfl
  ⟨rfl, h.2.1, h.2.2.1, (h.2.2.2.2 _).2.1⟩

/-! ## Noise range -/

/-- The difference `t - fade t` factors; the sign is that of `1 - 2 t` on the unit interval. -/
theorem PerlinNoise.self_sub_fade (t : ℚ) :
    t - PerlinNoise.fade t = t * (1 - t) * (1 - 2 * t) * (1 + 3 * (t * (1 - t))) := by
  unfold PerlinNoise.fade
  ring

/-- The curve `fade` stays at or above 0 on the unit interval. -/
theorem PerlinNoise.fade_nonneg (t : ℚ) (h0 : 0 ≤ t) : 0 ≤ PerlinNoise.fade t := by
  have hq : 0 ≤ t * (t * 6 - 15) + 10 := by nlinarith [sq_nonneg (4 * t - 5)]
  unfold PerlinNoise.fade
  positivity

/-- The curve `fade` stays at or below 1 on the unit interval. -/
theorem PerlinNoise.fade_le_one (t : ℚ) (h1 : t ≤ 1) : PerlinNoise.fade t ≤ 1 := by
  have hs : 1 - PerlinNoise.fade t = (1 - t) * (1 - t) * (1 - t) * (6 * t * t + 3 * t + 1) := by
    unfold PerlinNoise.fade
    ring
  have h1t : 0 ≤ 1 - t := by linarith
  have hq : 0 ≤ 6 * t * t + 3 * t + 1 := by nlinarith [sq_nonneg (4 * t + 1)]
  have : 0 ≤ 1 - PerlinNoise.fade t := by
    rw [hs]
    positivity
  linarith

/-- Below one half `fade` lies under the identity. -/
theorem PerlinNoise.fade_le_self (t : ℚ) (h0 : 0 ≤ t) (h1 : t ≤ 1 / 2) :
    PerlinNoise.fade t ≤ t := by
  have h1t : 0 ≤ 1 - t := by linarith
  have h2t : 0 ≤ 1 - 2 * t := by linarith
  have : 0 ≤ t - PerlinNoise.fade t := by
    rw [PerlinNoise.self_sub_fade]
    positivity
  linarith

/-- Above one half `fade` lies over the identity. -/
theorem PerlinNoise.self_le_fade (t : ℚ) (h0 : 1 / 2 ≤ t) (h1 : t ≤ 1) :
    t ≤ PerlinNoise.fade t := by
  have h1t : 0 ≤ 1 - t := by linarith
  have h2t : 0 ≤ 2 * t - 1 := by linarith
  have ht : 0 ≤ t := by linarith
  have hs : PerlinNoise.fade t - t = t * (1 - t) * (2 * t - 1) * (1 + 3 * (t * (1 - t))) := by
    have := PerlinNoise.self_sub_fade t
    linarith [this, show t * (1 - t) * (2 * t - 1) * (1 + 3 * (t * (1 - t)))
      = -(t * (1 - t) * (1 - 2 * t) * (1 + 3 * (t * (1 - t)))) by ring]
  have : 0 ≤ PerlinNoise.fade t - t := by
    rw [hs]
    positivity
  linarith

/-- The interpolated value of two gradients with arbitrary signs is within one
half of zero. -/
theorem PerlinNoise.lerp_grad_bound (t : ℚ) (h0 : 0 ≤ t) (h1 : t ≤ 1) (a b : Nat) :
    -(1 / 2) ≤ PerlinNoise.lerp (PerlinNoise.fade t) (PerlinNoise.grad a t)
        (PerlinNoise.grad b (t - 1)) ∧
    PerlinNoise.lerp (PerlinNoise.fade t) (PerlinNoise.grad a t)
        (PerlinNoise.grad b (t - 1)) ≤ 1 / 2 := by
  have hu0 := PerlinNoise.fade_nonneg t h0
  have hu1 := PerlinNoise.fade_le_one t h1
  generalize hu : PerlinNoise.fade t = u at hu0 hu1
  have hmid : (t ≤ 1 / 2 ∧ u ≤ t) ∨ (1 / 2 ≤ t ∧ t ≤ u) := by
    rcases le_total t (1 / 2) with h | h
    · exact Or.inl ⟨h, hu ▸ PerlinNoise.fade_le_self t h0 h⟩
    · exact Or.inr ⟨h, hu ▸ PerlinNoise.self_le_fade t h h1⟩
  unfold PerlinNoise.lerp PerlinNoise.grad
  rcases hmid with ⟨h, hut⟩ | ⟨h, hut⟩ <;> split_ifs <;> constructor <;> nlinarith

/-- The noise value is within `[-1, 1]` for every table and argument. -/
theorem PerlinNoise.noise_bound (n : PerlinNoise) (x : ℚ) :
    -1 ≤ n.noise x ∧ n.noise x ≤ 1 := by
  have h0 : 0 ≤ x - ⌊x⌋ := by linarith [Int.floor_le x]
  have h1 : x - ⌊x⌋ ≤ 1 := by linarith [Int.lt_floor_add_one x]
  have h := PerlinNoise.lerp_grad_bound (x - ⌊x⌋) h0 h1
    (n.get (n.get (⌊x⌋ % 256).toNat)) (n.get (n.get ((⌊x⌋ % 256).toNat + 1)))
  have e : n.noise x
      = PerlinNoise.lerp (PerlinNoise.fade (x - ⌊x⌋))
          (PerlinNoise.grad (n.get (n.get (⌊x⌋ % 256).toNat)) (x - ⌊x⌋))
          (PerlinNoise.grad (n.get (n.get ((⌊x⌋ % 256).toNat + 1))) (x - ⌊x⌋ - 1)) * 2 := rfl
  rw [e]
  constructor <;> linarith [h.1, h.2]

/-- Ground height is within 150 of the base line 504. -/
theorem TerrainManager.getGroundHeight_bound (t : TerrainManager) (x : ℚ) :
    354 ≤ t.getGroundHeight x ∧ t.getGroundHeight x ≤ 654 := by
  have h := PerlinNoise.noise_bound t.m_perlin (x * m_frequency)
  unfold TerrainManager.getGroundHeight SCREEN_HEIGHT m_amplitude
  constructor <;> linarith [h.1, h.2]

/-- C8. For every table (so for every seed) and every `x`, in exact arithmetic
`noise x` is twice the interpolation of the two lattice gradients, with
`X = floor(x) mod 256` and `t = x - floor(x)`, and lies in `[-1, 1]`; hence
`getGroundHeight x` lies in `[0.7 * 720 - 150, 0.7 * 720 + 150] = [354, 654]`. -/
theorem noise_range (t : TerrainManager) (n : PerlinNoise) (x : ℚ) :
    n.noise x
      = 2 * PerlinNoise.lerp (PerlinNoise.fade (x - ⌊x⌋))
          (PerlinNoise.grad (n.get (n.get (⌊x⌋ % 256).toNat)) (x - ⌊x⌋))
          (PerlinNoise.grad (n.get (n.get ((⌊x⌋ % 256).toNat + 1))) (x - ⌊x⌋ - 1)) ∧
    (-1 ≤ n.noise x ∧ n.noise x ≤ 1) ∧
    SCREEN_HEIGHT * (7 / 10) - m_amplitude = 354 ∧
    SCREEN_HEIGHT * (7 / 10) + m_amplitude = 654 ∧
    354 ≤ t.getGroundHeight x ∧ t.getGroundHeight x ≤ 654 := by
  refine ⟨?_, PerlinNoise.noise_bound n x, ?_, ?_, TerrainManager.getGroundHeight_bound t x⟩
  · simp only [PerlinNoise.noise]
    ring
  · norm_num [SCREEN_HEIGHT, m_amplitude]
  · norm_num [SCREEN_HEIGHT, m_amplitude]

/-! ## Landing -/

/-- The first normalisation loop ends at or below 180. -/
theorem normalizeDown_le (a : ℚ) : normalizeDown a ≤ 180 := by
  induction a using normalizeDown.induct with
  | case1 a h ih =>
    rw [normalizeDown, if_pos h]
    exact ih
  | case2 a h =>
    rw [normalizeDown, if_neg h]
    exact not_lt.mp h

/-- The first normalisation loop never goes below a bound under both `-180`
and its input. -/
theorem normalizeDown_ge (a lo : ℚ) (hlo : lo ≤ -180) (ha : lo ≤ a) : lo ≤ normalizeDown a := by
  induction a using normalizeDown.induct with
  | case1 a h ih =>
    rw [normalizeDown, if_pos h]
    apply ih
    have : (180 : ℚ) < a := h
    linarith
  | case2 a h =>
    rw [normalizeDown, if_neg h]
    exact ha

/-- The first normalisation loop subtracts a multiple of 360. -/
theorem normalizeDown_cong (a : ℚ) : ∃ k : ℤ, normalizeDown a = a - 360 * k := by
  induction a using normalizeDown.induct with
  | case1 a h ih =>
    obtain ⟨k, hk⟩ := ih
    refine ⟨k + 1, ?_⟩
    rw [normalizeDown, if_pos h, hk]
    push_cast
    ring
  | case2 a h =>
    refine ⟨0, ?_⟩
    rw [normalizeDown, if_neg h]
    simp

/-- The second normalisation loop ends at or above `-180`. -/
theorem normalizeUp_ge (a : ℚ) : -180 ≤ normalizeUp a := by
  induction a using normalizeUp.induct with
  | case1 a h ih =>
    rw [normalizeUp, if_pos h]
    exact ih
  | case2 a h =>
    rw [normalizeUp, if_neg h]
    exact not_lt.mp h

/-- The second normalisation loop never goes above a bound over both 180 and
its input. -/
theorem normalizeUp_le (a hi : ℚ) (hhi : 180 ≤ hi) (ha : a ≤ hi) : normalizeUp a ≤ hi := by
  induction a using normalizeUp.induct with
  | case1 a h ih =>
    rw [normalizeUp, if_pos h]
    apply ih
    linarith
  | case2 a h =>
    rw [normalizeUp, if_neg h]
    exact ha

/-- The second normalisation loop adds a multiple of 360. -/
theorem normalizeUp_cong (a : ℚ) : ∃ k : ℤ, normalizeUp a = a - 360 * k := by
  induction a using normalizeUp.induct with
  | case1 a h ih =>
    obtain ⟨k, hk⟩ := ih
    refine ⟨k - 1, ?_⟩
    rw [normalizeUp, if_pos h, hk]
    push_cast
    ring
  | case2 a h =>
    refine ⟨0, ?_⟩
    rw [normalizeUp, if_neg h]
    simp

/-- The landing angle is the rotation moved by a multiple of 360 into
`[-180, 180]`. -/
theorem landingAngle_spec (rot : ℚ) :
    -180 ≤ landingAngle rot ∧ landingAngle rot ≤ 180 ∧
    ∃ k : ℤ, landingAngle rot = rot - 360 * k := by
  refine ⟨normalizeUp_ge _, normalizeUp_le _ 180 le_rfl (normalizeDown_le rot), ?_⟩
  obtain ⟨k1, h1⟩ := normalizeDown_cong rot
  obtain ⟨k2, h2⟩ := normalizeUp_cong (normalizeDown rot)
  refine ⟨k1 + k2, ?_⟩
  unfold landingAngle
  rw [h2, h1]
  push_cast
  ring

/-- Any two representatives of a rotation in `[-180, 180]` have the same
absolute value. -/
theorem abs_eq_of_cong (r r' : ℚ) (k : ℤ) (hr : -180 ≤ r ∧ r ≤ 180)
    (hr' : -180 ≤ r' ∧ r' ≤ 180) (h : r' = r - 360 * k) : |r'| = |r| := by
  have hk1 : (k : ℚ) < 2 := by linarith [hr.1, hr.2, hr'.1, hr'.2]
  have hk2 : (-2 : ℚ) < k := by linarith [hr.1, hr.2, hr'.1, hr'.2]
  have hk1 : k < 2 := by exact_mod_cast hk1
  have hk2 : -2 < k := by exact_mod_cast hk2
  have hk : k = -1 ∨ k = 0 ∨ k = 1 := by omega
  rcases hk with rfl | rfl | rfl
  · have e1 : r = -180 := by
      push_cast at h
      linarith [hr.1, hr'.2]
    have e2 : r' = 180 := by
      push_cast at h
      linarith
    rw [e1, e2]
    norm_num
  · simp at h
    rw [h]
  · have e1 : r = 180 := by
      push_cast at h
      linarith [hr.2, hr'.1]
    have e2 : r' = -180 := by
      push_cast at h
      linarith
    rw [e1, e2]
    norm_num

/-- The collision loop reports nothing when no obstacle of the scene collides. -/
theorem hitsObstacle_eq_false (env : Platform) (s : Player) (scene : List Obstacle)
    (h : ∀ o ∈ scene, env.collides s o = false) : hitsObstacle env s scene = false := by
  induction scene with
  | nil => rfl
  | cons a rest ih =>
    unfold hitsObstacle
    rw [h a (List.mem_cons_self a rest)]
    simp only [Bool.false_eq_true, if_false]
    exact ih (fun o ho => h o (List.mem_cons_of_mem a ho))

/-- C3. A living, airborne player that collides with nothing and passes the
ground test after gravity and the move dies on landing exactly when its
rotation, moved by a multiple of 360 into `[-180, 180]`, has absolute value
above 90 (such a representative always exists); a survivor has rotation
`rotation * 0.9 + getGroundSlope(x) * 0.1` at the new `x`. Rotation 200 dies,
rotations 30 and 360 survive. -/
theorem landing_outcome (env : Platform) (scene : List Obstacle) (t : TerrainManager)
    (s : Player) (halive : s.m_isDead = false) (hair : s.onGround = false)
    (hfree : ∀ o ∈ scene, env.collides s o = false)
    (hground : s.y + (s.velocityY + 1 / 2) + 20 ≥ t.getGroundHeight (s.x + 5) - 5) :
    (∃ (r : ℚ) (k : ℤ), -180 ≤ r ∧ r ≤ 180 ∧ r = s.rotation - 360 * k) ∧
    (∀ (r : ℚ) (k : ℤ), -180 ≤ r → r ≤ 180 → r = s.rotation - 360 * k →
      ((s.updatePhysics env scene (some t)).m_isDead = true ↔ |r| > 90)) ∧
    ((s.updatePhysics env scene (some t)).m_isDead = false →
      (s.updatePhysics env scene (some t)).x = s.x + 5 ∧
      (s.updatePhysics env scene (some t)).rotation
        = s.rotation * (9 / 10) + t.getGroundSlope env (s.x + 5) * (1 / 10)) ∧
    (s.rotation = 200 → (s.updatePhysics env scene (some t)).m_isDead = true) ∧
    (s.rotation = 30 → (s.updatePhysics env scene (some t)).m_isDead = false) ∧
    (s.rotation = 360 → (s.updatePhysics env scene (some t)).m_isDead = false) := by
  obtain ⟨hlo, hhi, k0, hk0⟩ := landingAngle_spec s.rotation
  have hg : s.y + (s.velocityY + GRAVITY) + PLAYER_SIZE / 2
      ≥ t.getGroundHeight (s.x + PLAYER_SPEED) - 5 := by
    norm_num [GRAVITY, PLAYER_SIZE, PLAYER_SPEED]
    linarith
  have hdead : (s.updatePhysics env scene (some t)).m_isDead = true
      ↔ |landingAngle s.rotation| > 90 := by
    unfold Player.updatePhysics
    simp only [halive, hitsObstacle_eq_false env s scene hfree, hair, hg]
    by_cases hc : |landingAngle s.rotation| > 90 <;> simp [hc, Player.die, halive]
  have key : ∀ (r : ℚ) (k : ℤ), -180 ≤ r → r ≤ 180 → r = s.rotation - 360 * k →
      ((s.updatePhysics env scene (some t)).m_isDead = true ↔ |r| > 90) := by
    intro r k h1 h2 h3
    have hrel : r = landingAngle s.rotation - 360 * ((k - k0 : ℤ) : ℚ) := by
      rw [hk0, h3]
      push_cast
      ring
    rw [hdead, abs_eq_of_cong (landingAngle s.rotation) r (k - k0) ⟨hlo, hhi⟩ ⟨h1, h2⟩ hrel]
  refine ⟨⟨landingAngle s.rotation, k0, hlo, hhi, hk0⟩, key, ?_, ?_, ?_, ?_⟩
  · intro hsurv
    have hc : ¬ |landingAngle s.rotation| > 90 := by
      intro hc
      rw [hdead.mpr hc] at hsurv
      cases hsurv
    unfold Player.updatePhysics
    simp only [halive, hitsObstacle_eq_false env s scene hfree, hair, hg]
    simp [hc, PLAYER_SPEED]
  · intro hrot
    refine (key (-160) 1 (by norm_num) (by norm_num) ?_).mpr (by norm_num)
    rw [hrot]
    norm_num
  · intro hrot
    have h := key 30 0 (by norm_num) (by norm_num) (by rw [hrot]; norm_num)
    cases hd : (s.updatePhysics env scene (some t)).m_isDead
    · rfl
    · have := h.mp hd
      norm_num at this
  · intro hrot
    have h := key 0 1 (by norm_num) (by norm_num) (by rw [hrot]; norm_num)
    cases hd : (s.updatePhysics env scene (some t)).m_isDead
    · rfl
    · have := h.mp hd
      norm_num at this

/-- C3 at a concrete input: a player dropped below the lowest possible ground
level with rotation 200. -/
theorem landing_outcome_witness :
    landingPlayer.m_isDead = false ∧ landingPlayer.onGround = false ∧
    (∀ o ∈ ([] : List Obstacle), samplePlatform.collides landingPlayer o = false) ∧
    landingPlayer.y + (landingPlayer.velocityY + 1 / 2) + 20
      ≥ (TerrainManager.new samplePlatform 0).getGroundHeight (landingPlayer.x + 5) - 5 ∧
    (landingPlayer.updatePhysics samplePlatform []
      (some (TerrainManager.new samplePlatform 0))).m_isDead = true :=
  have hground : landingPlayer.y + (landingPlayer.velocityY + 1 / 2) + 20
      ≥ (TerrainManager.new samplePlatform 0).getGroundHeight (landingPlayer.x + 5) - 5 := by
    have h := (TerrainManager.getGroundHeight_bound (TerrainManager.new samplePlatform 0)
      (landingPlayer.x + 5)).2
    have hy : landingPlayer.y + (landingPlayer.velocityY + 1 / 2) + 20 = 1441 / 2 := by
      norm_num [landingPlayer]
    rw [hy]
    linarith
  have hfree : ∀ o ∈ ([] : List Obstacle), samplePlatform.collides landingPlayer o = false := by
    intro o ho
    cases ho
  ⟨rfl, rfl, hfree, hground,
    (landing_outcome samplePlatform [] (TerrainManager.new samplePlatform 0)
      landingPlayer rfl rfl hfree hground).2.2.2.1 rfl⟩

/-! ## Terrain generation and eviction -/

/-- The call `generateSegment` advances `m_currentX` by one segment length. -/
theorem TerrainManager.generateSegment_currentX (env : Platform) (t : TerrainManager) :
    (t.generateSegment env).m_currentX = t.m_currentX + 50 := by
  unfold TerrainManager.generateSegment m_segmentLength
  rfl

/-- The call `generateSegment` appends exactly one segment, built at the old `m_currentX`. -/
theorem TerrainManager.generateSegment_segments (env : Platform) (t : TerrainManager) :
    (t.generateSegment env).m_segments
      = t.m_segments ++ [⟨t.segmentPolygon t.m_currentX⟩] := by
  unfold TerrainManager.generateSegment
  simp only
  split_ifs <;> rfl

/-- Obstacles appended by `generateSegment` are built by the constructor. -/
theorem TerrainManager.generateSegment_obstacles (env : Platform) (t : TerrainManager) :
    (t.generateSegment env).m_obstacles = t.m_obstacles ∨
    ∃ x y, (t.generateSegment env).m_obstacles = t.m_obstacles ++ [Obstacle.new x y] := by
  unfold TerrainManager.generateSegment
  simp only
  split_ifs
  · exact Or.inr ⟨_, _, rfl⟩
  · exact Or.inl rfl
  · exact Or.inl rfl

/-- The generation loop does nothing once terrain reaches `playerX + SCREEN_WIDTH`. -/
theorem TerrainManager.generateLoop_done (env : Platform) (playerX : ℚ) (t : TerrainManager)
    (h : ¬ playerX > t.m_currentX - SCREEN_WIDTH) : t.generateLoop env playerX = t := by
  rw [TerrainManager.generateLoop, if_neg h]

/-- The generation loop ends with terrain reaching `playerX + SCREEN_WIDTH`. -/
theorem TerrainManager.generateLoop_exit (env : Platform) (playerX : ℚ) (t : TerrainManager) :
    ¬ playerX > (t.generateLoop env playerX).m_currentX - SCREEN_WIDTH := by
  induction t using TerrainManager.generateLoop.induct env playerX with
  | case1 t h ih =>
    rw [TerrainManager.generateLoop, if_pos h]
    exact ih
  | case2 t h =>
    rw [TerrainManager.generateLoop, if_neg h]
    exact h

/-- A property kept by `generateSegment` is kept by the generation loop. -/
theorem TerrainManager.generateLoop_preserves (env : Platform) (playerX : ℚ)
    (P : TerrainManager → Prop) (hP : ∀ t, P t → P (t.generateSegment env))
    (t : TerrainManager) (h : P t) : P (t.generateLoop env playerX) := by
  induction t using TerrainManager.generateLoop.induct env playerX with
  | case1 t hc ih =>
    rw [TerrainManager.generateLoop, if_pos hc]
    exact ih (hP t h)
  | case2 t hc =>
    rw [TerrainManager.generateLoop, if_neg hc]
    exact h

/-- Segment eviction is idempotent. -/
theorem TerrainManager.evictSegments_idem (playerX : ℚ) (l : List Segment) :
    TerrainManager.evictSegments playerX (TerrainManager.evictSegments playerX l)
      = TerrainManager.evictSegments playerX l := by
  induction l with
  | nil => rfl
  | cons s rest ih =>
    by_cases h : s.boundingRectRight < playerX - SCREEN_WIDTH * (3 / 2)
    · simp only [TerrainManager.evictSegments, if_pos h]
      exact ih
    · simp only [TerrainManager.evictSegments, if_neg h]

/-- Obstacle eviction is idempotent. -/
theorem TerrainManager.evictObstacles_idem (playerX : ℚ) (l : List Obstacle) :
    TerrainManager.evictObstacles playerX (TerrainManager.evictObstacles playerX l)
      = TerrainManager.evictObstacles playerX l := by
  induction l with
  | nil => rfl
  | cons o rest ih =>
    by_cases h : o.boundingRectRight < playerX - SCREEN_WIDTH * (3 / 2)
    · simp only [TerrainManager.evictObstacles, if_pos h]
      exact ih
    · simp only [TerrainManager.evictObstacles, if_neg h]

/-- A state on which none of the three loops of `update` acts is returned as it is. -/
theorem TerrainManager.update_of_fixed (env : Platform) (playerX : ℚ) (u : TerrainManager)
    (hgen : u.generateLoop env playerX = u)
    (hseg : TerrainManager.evictSegments playerX u.m_segments = u.m_segments)
    (hobs : TerrainManager.evictObstacles playerX u.m_obstacles = u.m_obstacles) :
    u.update env playerX = u := by
  unfold TerrainManager.update
  simp only [hgen, hseg, hobs]

/-- C7. For every terrain state (reachable or not) and every `playerX`, a
second `update(playerX)` right after the first finds nothing to do: its
generation loop returns the state as it was (no segment, no obstacle, no random
draw), both eviction loops remove nothing, and the whole call returns the same
`m_currentX`, segment queue, obstacle queue and draw count. -/
theorem update_idempotent (env : Platform) (playerX : ℚ) (t : TerrainManager) :
    (t.update env playerX).generateLoop env playerX = t.update env playerX ∧
    TerrainManager.evictSegments playerX (t.update env playerX).m_segments
      = (t.update env playerX).m_segments ∧
    TerrainManager.evictObstacles playerX (t.update env playerX).m_obstacles
      = (t.update env playerX).m_obstacles ∧
    (t.update env playerX).update env playerX = t.update env playerX := by
  have hx : ¬ playerX > (t.update env playerX).m_currentX - SCREEN_WIDTH :=
    TerrainManager.generateLoop_exit env playerX t
  have hgen := TerrainManager.generateLoop_done env playerX (t.update env playerX) hx
  have hseg : TerrainManager.evictSegments playerX (t.update env playerX).m_segments
      = (t.update env playerX).m_segments :=
    TerrainManager.evictSegments_idem playerX (t.generateLoop env playerX).m_segments
  have hobs : TerrainManager.evictObstacles playerX (t.update env playerX).m_obstacles
      = (t.update env playerX).m_obstacles :=
    TerrainManager.evictObstacles_idem playerX (t.generateLoop env playerX).m_obstacles
  exact ⟨hgen, hseg, hobs,
    TerrainManager.update_of_fixed env playerX (t.update env playerX) hgen hseg hobs⟩

/-- The call `generateSegment` keeps the local right edge of every obstacle at 20. -/
theorem TerrainManager.generateSegment_obstacle_right (env : Platform) (t : TerrainManager)
    (ht : ∀ o ∈ t.m_obstacles, o.boundingRectRight = 20) :
    ∀ o ∈ (t.generateSegment env).m_obstacles, o.boundingRectRight = 20 := by
  intro o ho
  rcases TerrainManager.generateSegment_obstacles env t with h | ⟨x, y, h⟩
  · rw [h] at ho
    exact ht o ho
  · rw [h, List.mem_append, List.mem_singleton] at ho
    rcases ho with ho | rfl
    · exact ht o ho
    · norm_num [Obstacle.boundingRectRight, Obstacle.new, rockPixmapSize]

/-- Every obstacle of a reachable terrain state has the constructor's local
bounding rectangle, whose right edge is 20. -/
theorem TerrainManager.Reachable.obstacle_right (env : Platform) (t : TerrainManager)
    (hr : TerrainManager.Reachable env t) : ∀ o ∈ t.m_obstacles, o.boundingRectRight = 20 := by
  have hgs := TerrainManager.generateSegment_obstacle_right env
  have hev : ∀ (p : ℚ) (l : List Obstacle), ∀ o ∈ TerrainManager.evictObstacles p l, o ∈ l := by
    intro p l
    induction l with
    | nil => intro o ho; exact ho
    | cons a rest ih =>
      intro o ho
      unfold TerrainManager.evictObstacles at ho
      split_ifs at ho
      · exact List.mem_cons_of_mem a (ih o ho)
      · exact ho
  induction hr with
  | init draws =>
    unfold TerrainManager.new
    simp only
    generalize TerrainManager.constructorIterations = n
    have : ∀ (n : Nat) (t : TerrainManager), (∀ o ∈ t.m_obstacles, o.boundingRectRight = 20) →
        ∀ o ∈ ((TerrainManager.generateSegment env)^[n] t).m_obstacles,
          o.boundingRectRight = 20 := by
      intro n
      induction n with
      | zero => intro t ht; exact ht
      | succ n ih =>
        intro t ht
        rw [Function.iterate_succ_apply]
        exact ih _ (hgs t ht)
    apply this
    intro o ho
    cases ho
  | update t playerX _ ih =>
    intro o ho
    have hmem := hev playerX _ o ho
    exact TerrainManager.generateLoop_preserves env playerX
      (fun t => ∀ o ∈ t.m_obstacles, o.boundingRectRight = 20) hgs t ih o hmem

/-- Obstacle eviction empties a queue of constructor-built obstacles as soon as
`playerX` exceeds 1940. -/
theorem TerrainManager.evictObstacles_all (playerX : ℚ) (hp : 1940 < playerX)
    (l : List Obstacle) (hl : ∀ o ∈ l, o.boundingRectRight = 20) :
    TerrainManager.evictObstacles playerX l = [] := by
  induction l with
  | nil => rfl
  | cons o rest ih =>
    have ho : o.boundingRectRight < playerX - SCREEN_WIDTH * (3 / 2) := by
      rw [hl o (List.mem_cons_self o rest)]
      norm_num [SCREEN_WIDTH]
      linarith
    simp only [TerrainManager.evictObstacles, if_pos ho]
    exact ih (fun o' ho' => hl o' (List.mem_cons_of_mem o ho'))

/-- C5 (what the code does). From every reachable terrain state, an `update`
with `playerX > 1940` leaves no obstacle resident: every obstacle present after
the generation loop is removed, also one whose world-space right edge is at or
ahead of `playerX - 1920`, because the test reads the item-local
`boundingRect().right()`, which is 20 for every obstacle. -/
theorem update_evicts_every_obstacle (env : Platform) (t : TerrainManager) (playerX : ℚ)
    (hr : TerrainManager.Reachable env t) (hp : 1940 < playerX) :
    (t.update env playerX).m_obstacles = [] ∧
    ∀ o ∈ (t.generateLoop env playerX).m_obstacles,
      playerX - SCREEN_WIDTH * (3 / 2) ≤ o.sceneRight → o ∉ (t.update env playerX).m_obstacles := by
  have hall : (t.update env playerX).m_obstacles = [] := by
    have h20 := TerrainManager.generateLoop_preserves env playerX
      (fun t => ∀ o ∈ t.m_obstacles, o.boundingRectRight = 20)
      (TerrainManager.generateSegment_obstacle_right env)
      t (TerrainManager.Reachable.obstacle_right env t hr)
    exact TerrainManager.evictObstacles_all playerX hp _ h20
  refine ⟨hall, ?_⟩
  intro o _ _ hmem
  rw [hall] at hmem
  cases hmem

/-- The call `generateSegment` leaves the noise table alone. -/
theorem TerrainManager.generateSegment_perlin (env : Platform) (t : TerrainManager) :
    (t.generateSegment env).m_perlin = t.m_perlin := by
  unfold TerrainManager.generateSegment
  simp only
  split_ifs <;> rfl

/-- Repeated `generateSegment` advances `m_currentX` by 50 each time and keeps
the noise table. -/
theorem TerrainManager.iterate_generateSegment (env : Platform) (n : Nat) (t : TerrainManager) :
    ((TerrainManager.generateSegment env)^[n] t).m_currentX = t.m_currentX + 50 * n ∧
    ((TerrainManager.generateSegment env)^[n] t).m_perlin = t.m_perlin := by
  induction n generalizing t with
  | zero => simp
  | succ n ih =>
    rw [Function.iterate_succ_apply]
    obtain ⟨h1, h2⟩ := ih (t.generateSegment env)
    rw [h1, h2, TerrainManager.generateSegment_currentX, TerrainManager.generateSegment_perlin]
    refine ⟨?_, rfl⟩
    push_cast
    ring

/-- The constructor's loop runs 52 times. -/
theorem TerrainManager.constructorIterations_eq : TerrainManager.constructorIterations = 52 := by
  unfold TerrainManager.constructorIterations
  have h : ⌈SCREEN_WIDTH * 2 / m_segmentLength⌉ = 52 := by
    rw [Int.ceil_eq_iff]
    norm_num [SCREEN_WIDTH, m_segmentLength]
  rw [h]
  rfl

/-- The constructed terrain ends at `x = 1320`. -/
theorem TerrainManager.new_currentX (env : Platform) (draws : Nat) :
    (TerrainManager.new env draws).m_currentX = 1320 := by
  unfold TerrainManager.new
  simp only
  rw [(TerrainManager.iterate_generateSegment env _ _).1,
    TerrainManager.constructorIterations_eq]
  norm_num [SCREEN_WIDTH]

/-- The generation loop passes through the state reached after `j + 1`
segments when terrain is still short of the target after `j` of them. -/
theorem TerrainManager.generateLoop_iterate (env : Platform) (playerX : ℚ) (j : Nat)
    (t : TerrainManager) (h : playerX > t.m_currentX + 50 * j - SCREEN_WIDTH) :
    t.generateLoop env playerX
      = ((TerrainManager.generateSegment env)^[j + 1] t).generateLoop env playerX := by
  induction j generalizing t with
  | zero =>
    have h0 : playerX > t.m_currentX - SCREEN_WIDTH := by
      simpa using h
    conv_lhs => rw [TerrainManager.generateLoop, if_pos h0]
    rfl
  | succ j ih =>
    have hj : (0 : ℚ) ≤ j := Nat.cast_nonneg j
    have h0 : playerX > t.m_currentX - SCREEN_WIDTH := by
      push_cast at h
      linarith
    conv_lhs => rw [TerrainManager.generateLoop, if_pos h0]
    rw [Function.iterate_succ_apply]
    apply ih
    rw [TerrainManager.generateSegment_currentX]
    push_cast at h
    linarith

/-- The generation loop only appends obstacles. -/
theorem TerrainManager.generateLoop_obstacle_mem (env : Platform) (playerX : ℚ)
    (t : TerrainManager) (o : Obstacle) (ho : o ∈ t.m_obstacles) :
    o ∈ (t.generateLoop env playerX).m_obstacles := by
  refine TerrainManager.generateLoop_preserves env playerX (fun t => o ∈ t.m_obstacles) ?_ t ho
  intro t ht
  rcases TerrainManager.generateSegment_obstacles env t with h | ⟨x, y, h⟩
  · rw [h]
    exact ht
  · rw [h]
    exact List.mem_append_left _ ht

/-- A flat segment whose random trial succeeds gets an obstacle at its midpoint. -/
theorem TerrainManager.generateSegment_spawns (env : Platform) (t : TerrainManager)
    (hflat : |t.getGroundSlope env (t.m_currentX + m_segmentLength / 2)| < 10)
    (htrial : env.bounded t.rngDraws 100 < 50) :
    Obstacle.new (t.m_currentX + m_segmentLength / 2)
        (t.getGroundHeight (t.m_currentX + m_segmentLength / 2))
      ∈ (t.generateSegment env).m_obstacles := by
  unfold TerrainManager.generateSegment
  simp [hflat, htrial, TerrainManager.spawnObstacle]

/-- Ground height depends on the terrain state through the noise table only. -/
theorem TerrainManager.getGroundHeight_congr (t u : TerrainManager) (h : t.m_perlin = u.m_perlin)
    (x : ℚ) : t.getGroundHeight x = u.getGroundHeight x := by
  unfold TerrainManager.getGroundHeight
  rw [h]

/-- Between lattice points 10 and 11 the sample table hashes both neighbours
to even values, so the noise is `2 * (t - fade t)`. -/
theorem sample_noise (x : ℚ) (h1 : 10 ≤ x) (h2 : x < 11) :
    (TerrainManager.new samplePlatform 0).m_perlin.noise x
      = 2 * ((x - 10) - PerlinNoise.fade (x - 10)) := by
  have hp : (TerrainManager.new samplePlatform 0).m_perlin
      = ⟨samplePlatform.shuffle (samplePlatform.generate 0) (List.range 256)
          ++ samplePlatform.shuffle (samplePlatform.generate 0) (List.range 256)⟩ := by
    unfold TerrainManager.new
    simp only
    rw [(TerrainManager.iterate_generateSegment samplePlatform _ _).2]
  have hfloor : ⌊x⌋ = 10 := by
    rw [Int.floor_eq_iff]
    exact ⟨by exact_mod_cast h1, by
      push_cast
      linarith⟩
  have hA : (TerrainManager.new samplePlatform 0).m_perlin.get
      ((TerrainManager.new samplePlatform 0).m_perlin.get 10) = 40 := by
    rw [hp]
    decide
  have hB : (TerrainManager.new samplePlatform 0).m_perlin.get
      ((TerrainManager.new samplePlatform 0).m_perlin.get (10 + 1)) = 44 := by
    rw [hp]
    decide
  unfold PerlinNoise.noise
  simp only [hfloor]
  have e : ((10 : ℤ) % 256).toNat = 10 := by decide
  rw [e, hA, hB]
  simp only [PerlinNoise.grad, PerlinNoise.lerp]
  norm_num
  ring

/-- The sample terrain is flat at `x = 2045`. -/
theorem sample_flat (t : TerrainManager)
    (hp : t.m_perlin = (TerrainManager.new samplePlatform 0).m_perlin) :
    |t.getGroundSlope samplePlatform 2045| < 10 := by
  unfold TerrainManager.getGroundSlope TerrainManager.getGroundHeight
  simp only [hp]
  rw [sample_noise _ (by norm_num [m_frequency]) (by norm_num [m_frequency]),
    sample_noise _ (by norm_num [m_frequency]) (by norm_num [m_frequency])]
  norm_num [samplePlatform, sampleAtan2Deg, PerlinNoise.fade, m_frequency, m_amplitude,
    SCREEN_HEIGHT, abs_lt]

/-- The rock at `x = 2045` is in the obstacle queue after the generation loop
of `update(2000)` on a fresh sample terrain. -/
theorem rockAhead_generated :
    rockAhead ∈ ((TerrainManager.new samplePlatform 0).generateLoop samplePlatform 2000).m_obstacles := by
  have hloop := TerrainManager.generateLoop_iterate samplePlatform 2000 14
    (TerrainManager.new samplePlatform 0) (by
      rw [TerrainManager.new_currentX]
      norm_num [SCREEN_WIDTH])
  rw [hloop]
  apply TerrainManager.generateLoop_obstacle_mem
  rw [Function.iterate_succ_apply']
  obtain ⟨hx, hperlin⟩ := TerrainManager.iterate_generateSegment samplePlatform 14
    (TerrainManager.new samplePlatform 0)
  rw [TerrainManager.new_currentX] at hx
  have hmid : ((TerrainManager.generateSegment samplePlatform)^[14]
      (TerrainManager.new samplePlatform 0)).m_currentX + m_segmentLength / 2 = 2045 := by
    rw [hx]
    norm_num [m_segmentLength]
  have hspawn := TerrainManager.generateSegment_spawns samplePlatform
    ((TerrainManager.generateSegment samplePlatform)^[14] (TerrainManager.new samplePlatform 0))
    (by
      rw [hmid]
      exact sample_flat _ hperlin)
    (show (0 : Nat) < 50 by decide)
  rw [hmid, TerrainManager.getGroundHeight_congr _ _ hperlin] at hspawn
  exact hspawn

/-- C5 at a concrete input: a fresh sample terrain updated at `playerX = 2000`.
The generation loop spawns a rock at `x = 2045`, ahead of the player, with
world-space right edge `2065 ≥ 2000 - 1920`; it is gone when `update` returns. -/
theorem update_evicts_every_obstacle_witness :
    TerrainManager.Reachable samplePlatform (TerrainManager.new samplePlatform 0) ∧
    (1940 : ℚ) < 2000 ∧
    rockAhead ∈ ((TerrainManager.new samplePlatform 0).generateLoop samplePlatform 2000).m_obstacles ∧
    rockAhead.posX = 2045 ∧ rockAhead.sceneRight = 2065 ∧
    2000 - SCREEN_WIDTH * (3 / 2) ≤ rockAhead.sceneRight ∧
    rockAhead ∉ ((TerrainManager.new samplePlatform 0).update samplePlatform 2000).m_obstacles :=
  have hright : rockAhead.sceneRight = 2065 := by
    norm_num [rockAhead, Obstacle.sceneRight, Obstacle.boundingRectRight, Obstacle.new,
      rockPixmapSize]
  have hin : 2000 - SCREEN_WIDTH * (3 / 2) ≤ rockAhead.sceneRight := by
    rw [hright]
    norm_num [SCREEN_WIDTH]
  ⟨TerrainManager.Reachable.init 0, by norm_num, rockAhead_generated, rfl, hright, hin,
    (update_evicts_every_obstacle samplePlatform _ 2000 (TerrainManager.Reachable.init 0)
      (by norm_num)).2 rockAhead rockAhead_generated hin⟩

/-! ## The terrain window -/

/-- Folding `min` over points that are all at or right of `m` returns `m`. -/
theorem foldl_min_eq (l : List (ℚ × ℚ)) (m : ℚ) (h : ∀ q ∈ l, m ≤ q.1) :
    l.foldl (fun m q => min m q.1) m = m := by
  induction l with
  | nil => rfl
  | cons a rest ih =>
    rw [List.foldl_cons, min_eq_left (h a (List.mem_cons_self a rest))]
    exact ih (fun q hq => h q (List.mem_cons_of_mem a hq))

/-- Folding `max` over points that are all at or left of `b` stays at or left of `b`. -/
theorem foldl_max_le (l : List (ℚ × ℚ)) (m b : ℚ) (hm : m ≤ b) (h : ∀ q ∈ l, q.1 ≤ b) :
    l.foldl (fun m q => max m q.1) m ≤ b := by
  induction l generalizing m with
  | nil => exact hm
  | cons a rest ih =>
    rw [List.foldl_cons]
    exact ih _ (max_le hm (h a (List.mem_cons_self a rest)))
      (fun q hq => h q (List.mem_cons_of_mem a hq))

/-- Every sample point of a segment built at `cx` has its x in `[cx, cx + 50]`. -/
theorem TerrainManager.segmentPolygon_mid (t : TerrainManager) (cx : ℚ) (q : ℚ × ℚ)
    (hq : q ∈ (List.range (10 + 1)).map (fun i : Nat =>
      (cx + (i : ℚ) * m_segmentLength / (10 : Nat), t.getGroundHeight
        (cx + (i : ℚ) * m_segmentLength / (10 : Nat))))) :
    cx ≤ q.1 ∧ q.1 ≤ cx + 50 := by
  obtain ⟨i, hi, rfl⟩ := List.mem_map.mp hq
  have hi' : i < 11 := List.mem_range.mp hi
  have h0 : (0 : ℚ) ≤ i := Nat.cast_nonneg i
  have h1 : (i : ℚ) ≤ 10 := by exact_mod_cast Nat.lt_succ_iff.mp hi'
  simp only [m_segmentLength]
  constructor
  · have : (0 : ℚ) ≤ (i : ℚ) * 50 / ((10 : Nat) : ℚ) := by positivity
    linarith
  · have : (i : ℚ) * 50 / ((10 : Nat) : ℚ) ≤ 50 := by
      rw [div_le_iff₀ (by norm_num)]
      push_cast
      linarith
    linarith

/-- The bounding rectangle of a segment built at `cx` starts at `cx`. -/
theorem TerrainManager.segment_left (t : TerrainManager) (cx : ℚ) :
    (⟨t.segmentPolygon cx⟩ : Segment).boundingRectLeft = cx := by
  unfold Segment.boundingRectLeft TerrainManager.segmentPolygon
  simp only
  apply foldl_min_eq
  intro q hq
  rcases List.mem_append.mp hq with hq | hq
  · exact (TerrainManager.segmentPolygon_mid t cx q hq).1
  · rw [List.mem_singleton.mp hq]
    norm_num [m_segmentLength]

/-- The bounding rectangle of a segment built at `cx` ends at `cx + 50`. -/
theorem TerrainManager.segment_right (t : TerrainManager) (cx : ℚ) :
    (⟨t.segmentPolygon cx⟩ : Segment).boundingRectRight = cx + 50 := by
  unfold Segment.boundingRectRight TerrainManager.segmentPolygon
  simp only
  rw [List.foldl_append, List.foldl_cons, List.foldl_nil]
  apply max_eq_right
  apply foldl_max_le
  · norm_num [m_segmentLength]
  · intro q hq
    exact (TerrainManager.segmentPolygon_mid t cx q hq).2

/-- A chain extended by a segment that starts at its end is a chain. -/
theorem chainFrom_append (a b : ℚ) (l : List Segment) (s : Segment) (h : chainFrom a l b)
    (hl : s.boundingRectLeft = b) (hr : s.boundingRectRight = b + 50) :
    chainFrom a (l ++ [s]) (b + 50) := by
  induction l generalizing a with
  | nil =>
    have hab : a = b := h
    subst hab
    exact ⟨hl, hr, rfl⟩
  | cons x rest ih =>
    obtain ⟨h1, h2, h3⟩ := h
    exact ⟨h1, h2, ih (a + 50) h3⟩

/-- The call `generateSegment` extends the chain up to the new `m_currentX`. -/
theorem TerrainManager.generateSegment_chain (env : Platform) (a : ℚ) (t : TerrainManager)
    (h : chainFrom a t.m_segments t.m_currentX) :
    chainFrom a (t.generateSegment env).m_segments (t.generateSegment env).m_currentX := by
  rw [TerrainManager.generateSegment_segments, TerrainManager.generateSegment_currentX]
  exact chainFrom_append a t.m_currentX t.m_segments _ h
    (TerrainManager.segment_left t t.m_currentX) (TerrainManager.segment_right t t.m_currentX)

/-- A chain never ends left of its start. -/
theorem chainFrom_le (a b : ℚ) (l : List Segment) (h : chainFrom a l b) : a ≤ b := by
  induction l generalizing a with
  | nil => exact le_of_eq h
  | cons x rest ih =>
    have := ih (a + 50) h.2.2
    linarith

/-- Every segment of a chain starts at or right of the chain start. -/
theorem chainFrom_left_ge (a b : ℚ) (l : List Segment) (h : chainFrom a l b) :
    ∀ s ∈ l, a ≤ s.boundingRectLeft := by
  induction l generalizing a with
  | nil =>
    intro s hs
    cases hs
  | cons x rest ih =>
    intro s hs
    rcases List.mem_cons.mp hs with rfl | hs
    · exact le_of_eq h.1.symm
    · have := ih (a + 50) h.2.2 s hs
      linarith

/-- Eviction leaves a chain with the same end whose start did not move left;
the start is the old one or lies behind the eviction threshold. -/
theorem chainFrom_evict (playerX a b : ℚ) (l : List Segment) (h : chainFrom a l b) :
    ∃ a2, chainFrom a2 (TerrainManager.evictSegments playerX l) b ∧ a ≤ a2 ∧
      (a2 = a ∨ a2 < playerX - 1920) := by
  induction l generalizing a with
  | nil => exact ⟨a, h, le_rfl, Or.inl rfl⟩
  | cons s rest ih =>
    by_cases hc : s.boundingRectRight < playerX - SCREEN_WIDTH * (3 / 2)
    · obtain ⟨a2, h1, h2, h3⟩ := ih (a + 50) h.2.2
      refine ⟨a2, ?_, by linarith, Or.inr ?_⟩
      · simp only [TerrainManager.evictSegments, if_pos hc]
        exact h1
      · rcases h3 with h3 | h3
        · rw [h3, ← h.2.1]
          norm_num [SCREEN_WIDTH] at hc
          exact hc
        · exact h3
    · refine ⟨a, ?_, le_rfl, Or.inl rfl⟩
      simp only [TerrainManager.evictSegments, if_neg hc]
      exact h

/-- A non-degenerate chain covers every x between its start and its end. -/
theorem chainFrom_covers (a b : ℚ) (l : List Segment) (h : chainFrom a l b) (x : ℚ)
    (hax : a ≤ x) (hxb : x ≤ b) (hab : a < b) :
    ∃ s ∈ l, s.boundingRectLeft ≤ x ∧ x ≤ s.boundingRectRight := by
  induction l generalizing a with
  | nil =>
    have : a = b := h
    linarith
  | cons s rest ih =>
    obtain ⟨h1, h2, h3⟩ := h
    by_cases hx : x ≤ a + 50
    · exact ⟨s, List.mem_cons_self s rest, by rw [h1]; exact hax, by rw [h2]; exact hx⟩
    · have hx' : a + 50 ≤ x := le_of_lt (not_le.mp hx)
      obtain ⟨s2, hs2, hc⟩ := ih (a + 50) h3 hx' (by linarith)
      exact ⟨s2, List.mem_cons_of_mem s hs2, hc⟩

/-- A chain is ordered by increasing x, gap-free and made of 50-wide segments. -/
theorem chainFrom_contiguous (a b : ℚ) (l : List Segment) (h : chainFrom a l b) :
    List.Pairwise (fun s1 s2 : Segment => s1.boundingRectLeft < s2.boundingRectLeft) l ∧
    List.Chain' (fun s1 s2 : Segment => s2.boundingRectLeft = s1.boundingRectRight) l ∧
    ∀ s ∈ l, s.boundingRectRight = s.boundingRectLeft + 50 := by
  induction l generalizing a with
  | nil => exact ⟨List.Pairwise.nil, List.chain'_nil, fun s hs => by cases hs⟩
  | cons s rest ih =>
    obtain ⟨h1, h2, h3⟩ := h
    obtain ⟨i1, i2, i3⟩ := ih (a + 50) h3
    refine ⟨List.Pairwise.cons ?_ i1, ?_, ?_⟩
    · intro s2 hs2
      have := chainFrom_left_ge (a + 50) b rest h3 s2 hs2
      linarith
    · cases rest with
      | nil => exact List.chain'_singleton s
      | cons s2 rest2 =>
        refine List.Chain'.cons ?_ i2
        rw [h2, h3.1]
    · intro s2 hs2
      rcases List.mem_cons.mp hs2 with rfl | hs2
      · rw [h2, h1]
      · exact i3 s2 hs2

/-- The constructor leaves a chain that starts at `-1280`. -/
theorem TerrainManager.new_chain (env : Platform) (draws : Nat) :
    chainFrom (-1280) (TerrainManager.new env draws).m_segments
      (TerrainManager.new env draws).m_currentX := by
  have hit : ∀ (n : Nat) (t : TerrainManager), chainFrom (-1280) t.m_segments t.m_currentX →
      chainFrom (-1280) ((TerrainManager.generateSegment env)^[n] t).m_segments
        ((TerrainManager.generateSegment env)^[n] t).m_currentX := by
    intro n
    induction n with
    | zero => intro t ht; exact ht
    | succ n ih =>
      intro t ht
      rw [Function.iterate_succ_apply]
      exact ih _ (TerrainManager.generateSegment_chain env _ t ht)
  unfold TerrainManager.new
  apply hit
  show (-1280 : ℚ) = -SCREEN_WIDTH
  rfl

/-- One `update` keeps the chain, never moves its start left, and extends it
to `playerX + 1280` or beyond. -/
theorem TerrainManager.update_chain (env : Platform) (playerX a : ℚ) (t : TerrainManager)
    (h : chainFrom a t.m_segments t.m_currentX) :
    ∃ a2, chainFrom a2 (t.update env playerX).m_segments (t.update env playerX).m_currentX ∧
      a ≤ a2 ∧ (a2 = a ∨ a2 < playerX - 1920) ∧
      playerX + 1280 ≤ (t.update env playerX).m_currentX := by
  have hgen := TerrainManager.generateLoop_preserves env playerX
    (fun t => chainFrom a t.m_segments t.m_currentX)
    (fun t ht => TerrainManager.generateSegment_chain env a t ht) t h
  obtain ⟨a2, h1, h2, h3⟩ := chainFrom_evict playerX a _ _ hgen
  refine ⟨a2, h1, h2, h3, ?_⟩
  have hx := TerrainManager.generateLoop_exit env playerX t
  have hx' : playerX ≤ (t.generateLoop env playerX).m_currentX - SCREEN_WIDTH := not_lt.mp hx
  show playerX + 1280 ≤ (t.generateLoop env playerX).m_currentX
  unfold SCREEN_WIDTH at hx'
  linarith

/-- The window invariant of the states reached by non-decreasing updates. -/
theorem TerrainManager.ReachedAt.chain (env : Platform) (t : TerrainManager) (p : ℚ)
    (hr : TerrainManager.ReachedAt env t p) :
    ∃ a, chainFrom a t.m_segments t.m_currentX ∧ -1280 ≤ a ∧
      (a = -1280 ∨ a < p - 1920) ∧ p + 1280 ≤ t.m_currentX ∧ 320 ≤ p := by
  induction hr with
  | first draws =>
    obtain ⟨a2, h1, h2, h3, h4⟩ :=
      TerrainManager.update_chain env 320 (-1280) _ (TerrainManager.new_chain env draws)
    exact ⟨a2, h1, h2, h3, h4, le_rfl⟩
  | next t p q _ hpq ih =>
    obtain ⟨a, c1, c2, c3, _, c5⟩ := ih
    obtain ⟨a2, h1, h2, h3, h4⟩ := TerrainManager.update_chain env q a t c1
    refine ⟨a2, h1, by linarith, ?_, h4, by linarith⟩
    rcases h3 with h3 | h3
    · rcases c3 with c3 | c3
      · exact Or.inl (h3.trans c3)
      · exact Or.inr (by rw [h3]; linarith)
    · exact Or.inr h3

/-- C6 (as amended). In every state reached by construction and `update`
calls with non-decreasing `playerX` starting at 320, the resident
segments are ordered by increasing x, gap-free and 50 wide, and their ranges
cover `[max (playerX - 1920) (-1280), playerX + 1280]`: the whole window
`[playerX - 1920, playerX + 1280]` once `playerX ≥ 640`, and otherwise the
window cut at the world start `-1280`. The freshly constructed terrain is
ordered, gap-free and 50 wide as well. -/
theorem terrain_window (env : Platform) (t : TerrainManager) (playerX : ℚ)
    (hr : TerrainManager.ReachedAt env t playerX) :
    t.contiguous ∧
    t.covers (max (playerX - SCREEN_WIDTH * (3 / 2)) (-SCREEN_WIDTH)) (playerX + SCREEN_WIDTH) ∧
    (640 ≤ playerX → t.covers (playerX - 1920) (playerX + 1280)) ∧
    ∀ draws, (TerrainManager.new env draws).contiguous := by
  obtain ⟨a, hc, ha, hleft, hright, hp⟩ := TerrainManager.ReachedAt.chain env t playerX hr
  have hcov : ∀ x : ℚ, max (playerX - 1920) (-1280) ≤ x → x ≤ playerX + 1280 →
      ∃ s ∈ t.m_segments, s.boundingRectLeft ≤ x ∧ x ≤ s.boundingRectRight := by
    intro x hlo hhi
    have h1 : playerX - 1920 ≤ x := le_trans (le_max_left _ _) hlo
    have h2 : (-1280 : ℚ) ≤ x := le_trans (le_max_right _ _) hlo
    have hax : a ≤ x := by
      rcases hleft with h | h
      · rw [h]
        exact h2
      · linarith
    have hab : a < t.m_currentX := by
      rcases hleft with h | h
      · rw [h]
        linarith
      · linarith
    exact chainFrom_covers a t.m_currentX t.m_segments hc x hax (by linarith) hab
  refine ⟨chainFrom_contiguous a _ _ hc, ?_, ?_, ?_⟩
  · intro x hlo hhi
    have e1 : playerX - SCREEN_WIDTH * (3 / 2) = playerX - 1920 := by norm_num [SCREEN_WIDTH]
    have e2 : -SCREEN_WIDTH = (-1280 : ℚ) := rfl
    have e3 : playerX + SCREEN_WIDTH = playerX + 1280 := rfl
    rw [e1, e2] at hlo
    rw [e3] at hhi
    exact hcov x hlo hhi
  · intro h640 x hlo hhi
    apply hcov x _ hhi
    apply max_le hlo
    linarith
  · intro draws
    exact chainFrom_contiguous (-1280) _ _ (TerrainManager.new_chain env draws)

/-- C6 (as amended) at a concrete input: the first update of a fresh terrain. -/
theorem terrain_window_witness :
    TerrainManager.ReachedAt samplePlatform
      ((TerrainManager.new samplePlatform 0).update samplePlatform 320) 320 ∧
    ((TerrainManager.new samplePlatform 0).update samplePlatform 320).covers
      (max (320 - SCREEN_WIDTH * (3 / 2)) (-SCREEN_WIDTH)) (320 + SCREEN_WIDTH) :=
  ⟨TerrainManager.ReachedAt.first 0,
    (terrain_window samplePlatform _ 320 (TerrainManager.ReachedAt.first 0)).2.1⟩

/-- C6 as stated fails at the first update: after construction and
`update(320)` no resident segment contains `x = -1600`, although
`320 - 1920 ≤ -1600 ≤ 320 + 1280`; this holds on every platform and for every
seed, so the window `[playerX - 1920, playerX + 1280]` is not covered. -/
theorem window_not_covered_at_spawn :
    TerrainManager.ReachedAt samplePlatform
      ((TerrainManager.new samplePlatform 0).update samplePlatform 320) 320 ∧
    ¬ ((TerrainManager.new samplePlatform 0).update samplePlatform 320).covers
      (320 - 1920) (320 + 1280) ∧
    ∀ (env : Platform) (draws : Nat),
      ¬ ((TerrainManager.new env draws).update env 320).covers (320 - 1920) (320 + 1280) := by
  have hall : ∀ (env : Platform) (draws : Nat),
      ¬ ((TerrainManager.new env draws).update env 320).covers (320 - 1920) (320 + 1280) := by
    intro env draws hcov
    obtain ⟨a, hc, ha, _⟩ :=
      TerrainManager.ReachedAt.chain env _ 320 (TerrainManager.ReachedAt.first draws)
    obtain ⟨s, hs, hl, _⟩ := hcov (-1600) (by norm_num) (by norm_num)
    have := chainFrom_left_ge a _ _ hc s hs
    linarith
  exact ⟨TerrainManager.ReachedAt.first 0, hall samplePlatform 0, hall⟩

/-! ## The per-tick driver -/

/-- The game is over only with a dead player, in every reachable session. -/
theorem Reachable.gameOver_dead (env : Platform) (g : Session) (hr : Reachable env g) :
    g.gameState = GameState.GameOver → g.player.m_isDead = true := by
  induction hr with
  | init draws =>
    intro h
    cases h
  | next g e _ ih =>
    intro h
    cases e with
    | timeout =>
      unfold step tick at h ⊢
      cases hs : g.gameState with
      | GameOver =>
        simp only [hs] at h ⊢
        exact ih hs
      | Playing =>
        simp only [hs] at h ⊢
        by_cases hd : g.player.isDead = true
        · simp only [hd, if_true] at h ⊢
          exact hd
        · simp only [hd] at h
          simp [hs] at h
    | spacePressed =>
      unfold step at h ⊢
      cases hs : g.gameState with
      | GameOver =>
        simp only [hs] at h ⊢
        exact ih hs
      | Playing =>
        simp only [hs] at h
        simp [hs] at h
    | spaceReleased =>
      unfold step at h ⊢
      cases hs : g.gameState with
      | GameOver =>
        simp only [hs] at h ⊢
        exact ih hs
      | Playing =>
        simp only [hs] at h
        simp [hs] at h
    | rPressed =>
      unfold step at h ⊢
      cases hs : g.gameState with
      | GameOver =>
        simp only [hs] at h
        simp [setupGame] at h
      | Playing =>
        simp only [hs] at h
        simp [hs] at h

/-- C9. One tick (a) changes nothing in state `GameOver`; (b) in state
`Playing` with a dead player only sets the state to `GameOver`; (c) in state
`Playing` with a living player keeps `Playing`, applies
`TerrainManager::update` at the player's x before the step, and then
`Player::updatePhysics` against the updated terrain and its obstacles. Hence
in every reachable session `GameOver` implies that the player is dead. -/
theorem tick_gating (env : Platform) (g : Session) :
    (g.gameState = GameState.GameOver → tick env g = g) ∧
    (g.gameState = GameState.Playing → g.player.isDead = true →
      tick env g = { g with gameState := GameState.GameOver }) ∧
    (g.gameState = GameState.Playing → g.player.isDead = false →
      (tick env g).gameState = GameState.Playing ∧
      (tick env g).terrain = g.terrain.update env g.player.x ∧
      (tick env g).player
        = g.player.updatePhysics env (g.terrain.update env g.player.x).m_obstacles
            (some (g.terrain.update env g.player.x))) ∧
    (Reachable env g → g.gameState = GameState.GameOver → g.player.isDead = true) := by
  refine ⟨?_, ?_, ?_, fun hr h => Reachable.gameOver_dead env g hr h⟩
  · intro h
    simp [tick, h]
  · intro h hd
    simp [tick, h, hd]
  · intro h hd
    simp [tick, h, hd]

/-- C9 at a concrete input: the first tick of a fresh session, and the tick
that observes a dead player. -/
theorem tick_gating_witness :
    (tick samplePlatform (setupGame samplePlatform 0)).gameState = GameState.Playing ∧
    (tick samplePlatform (setupGame samplePlatform 0)).terrain
      = (setupGame samplePlatform 0).terrain.update samplePlatform
          (setupGame samplePlatform 0).player.x ∧
    tick samplePlatform
        { setupGame samplePlatform 0 with player := { Player.new with m_isDead := true } }
      = { gameState := GameState.GameOver
          terrain := TerrainManager.new samplePlatform 0
          player := { Player.new with m_isDead := true } } :=
  have h := (tick_gating samplePlatform (setupGame samplePlatform 0)).2.2.1 rfl rfl
  ⟨h.1, h.2.1,
    (tick_gating samplePlatform
      { setupGame samplePlatform 0 with player := { Player.new with m_isDead := true } }).2.1
      rfl rfl⟩

/-! ## Segment eviction -/

/-- Eviction of a non-degenerate chain that ends at or ahead of the threshold
leaves a non-degenerate chain whose first segment ends at or ahead of the
threshold. -/
theorem chainFrom_evict_front (playerX a b : ℚ) (l : List Segment) (h : chainFrom a l b)
    (hab : a < b) (hb : playerX - 1920 ≤ b) :
    ∃ a2, chainFrom a2 (TerrainManager.evictSegments playerX l) b ∧ a2 < b ∧
      playerX - 1920 ≤ a2 + 50 := by
  induction l generalizing a with
  | nil =>
    have : a = b := h
    linarith
  | cons s rest ih =>
    obtain ⟨h1, h2, h3⟩ := h
    by_cases hc : s.boundingRectRight < playerX - SCREEN_WIDTH * (3 / 2)
    · have hc' : a + 50 < playerX - 1920 := by
        rw [h2] at hc
        norm_num [SCREEN_WIDTH] at hc
        linarith
      obtain ⟨a2, c1, c2, c3⟩ := ih (a + 50) h3 (by linarith)
      refine ⟨a2, ?_, c2, c3⟩
      simp only [TerrainManager.evictSegments, if_pos hc]
      exact c1
    · refine ⟨a, ?_, hab, ?_⟩
      · simp only [TerrainManager.evictSegments, if_neg hc]
        exact ⟨h1, h2, h3⟩
      · have hc' : playerX - SCREEN_WIDTH * (3 / 2) ≤ s.boundingRectRight := not_lt.mp hc
        rw [h2] at hc'
        norm_num [SCREEN_WIDTH] at hc'
        linarith

/-- Eviction removes a prefix, and every removed segment ends behind the threshold. -/
theorem TerrainManager.evictSegments_prefix (playerX : ℚ) (l : List Segment) :
    ∃ removed : List Segment, l = removed ++ TerrainManager.evictSegments playerX l ∧
      ∀ s ∈ removed, s.boundingRectRight < playerX - SCREEN_WIDTH * (3 / 2) := by
  induction l with
  | nil => exact ⟨[], rfl, fun s hs => by cases hs⟩
  | cons x rest ih =>
    by_cases hc : x.boundingRectRight < playerX - SCREEN_WIDTH * (3 / 2)
    · obtain ⟨removed, e, hall⟩ := ih
      refine ⟨x :: removed, ?_, ?_⟩
      · simp only [TerrainManager.evictSegments, if_pos hc, List.cons_append]
        rw [← e]
      · intro s hs
        rcases List.mem_cons.mp hs with rfl | hs
        · exact hc
        · exact hall s hs
    · refine ⟨[], ?_, fun s hs => by cases hs⟩
      simp only [TerrainManager.evictSegments, if_neg hc, List.nil_append]

/-- The generation loop only appends segments. -/
theorem TerrainManager.generateLoop_segments (env : Platform) (playerX : ℚ)
    (t : TerrainManager) :
    ∃ added : List Segment, (t.generateLoop env playerX).m_segments = t.m_segments ++ added := by
  refine TerrainManager.generateLoop_preserves env playerX
    (fun u => ∃ added : List Segment, u.m_segments = t.m_segments ++ added) ?_ t ⟨[], by simp⟩
  intro u hu
  obtain ⟨added, e⟩ := hu
  refine ⟨added ++ [⟨u.segmentPolygon u.m_currentX⟩], ?_⟩
  rw [TerrainManager.generateSegment_segments, e, List.append_assoc]

/-- The segment part of `update` is the eviction of the generated queue. -/
theorem TerrainManager.update_segments (env : Platform) (playerX : ℚ) (t : TerrainManager) :
    (t.update env playerX).m_segments
      = TerrainManager.evictSegments playerX (t.generateLoop env playerX).m_segments ∧
    (t.update env playerX).m_currentX = (t.generateLoop env playerX).m_currentX :=
  ⟨rfl, rfl⟩

/-- Every reachable terrain state holds a non-degenerate chain of segments
ending at `m_currentX`. -/
theorem TerrainManager.Reachable.segments_chain (env : Platform) (t : TerrainManager)
    (hr : TerrainManager.Reachable env t) :
    ∃ a, chainFrom a t.m_segments t.m_currentX ∧ a < t.m_currentX := by
  induction hr with
  | init draws =>
    refine ⟨-1280, TerrainManager.new_chain env draws, ?_⟩
    rw [TerrainManager.new_currentX]
    norm_num
  | update t playerX _ ih =>
    obtain ⟨a, hc, hlt⟩ := ih
    have hgen := TerrainManager.generateLoop_preserves env playerX
      (fun u => chainFrom a u.m_segments u.m_currentX ∧ a < u.m_currentX)
      (fun u hu => ⟨TerrainManager.generateSegment_chain env a u hu.1, by
        rw [TerrainManager.generateSegment_currentX]
        linarith [hu.2]⟩) t ⟨hc, hlt⟩
    have hx : playerX ≤ (t.generateLoop env playerX).m_currentX - SCREEN_WIDTH :=
      not_lt.mp (TerrainManager.generateLoop_exit env playerX t)
    unfold SCREEN_WIDTH at hx
    obtain ⟨a2, c1, c2, _⟩ := chainFrom_evict_front playerX a _ _ hgen.1 hgen.2 (by linarith)
    exact ⟨a2, c1, c2⟩

/-- C11. From every reachable terrain state and for every `playerX`, after
`update(playerX)` every resident segment has right edge at or ahead of
`playerX - 1.5 * SCREEN_WIDTH = playerX - 1920`, the segment queue is not
empty, and the call removed exactly a prefix of the generated queue (the old
queue followed by the new segments) whose members all have right edge behind
`playerX - 1920`: no segment still inside the window is removed. -/
theorem segment_eviction_exact (env : Platform) (t : TerrainManager) (playerX : ℚ)
    (hr : TerrainManager.Reachable env t) :
    (playerX - SCREEN_WIDTH * (3 / 2) = playerX - 1920) ∧
    (∀ s ∈ (t.update env playerX).m_segments, playerX - 1920 ≤ s.boundingRectRight) ∧
    (t.update env playerX).m_segments ≠ [] ∧
    ∃ added removed : List Segment,
      (t.generateLoop env playerX).m_segments = t.m_segments ++ added ∧
      t.m_segments ++ added = removed ++ (t.update env playerX).m_segments ∧
      ∀ s ∈ removed, s.boundingRectRight < playerX - 1920 := by
  have e1920 : playerX - SCREEN_WIDTH * (3 / 2) = playerX - 1920 := by
    norm_num [SCREEN_WIDTH]
  obtain ⟨a, hc, hlt⟩ := TerrainManager.Reachable.segments_chain env t hr
  have hgen := TerrainManager.generateLoop_preserves env playerX
    (fun u => chainFrom a u.m_segments u.m_currentX ∧ a < u.m_currentX)
    (fun u hu => ⟨TerrainManager.generateSegment_chain env a u hu.1, by
      rw [TerrainManager.generateSegment_currentX]
      linarith [hu.2]⟩) t ⟨hc, hlt⟩
  have hx : playerX ≤ (t.generateLoop env playerX).m_currentX - SCREEN_WIDTH :=
    not_lt.mp (TerrainManager.generateLoop_exit env playerX t)
  unfold SCREEN_WIDTH at hx
  obtain ⟨a2, c1, c2, c3⟩ := chainFrom_evict_front playerX a _ _ hgen.1 hgen.2 (by linarith)
  obtain ⟨hseg, _⟩ := TerrainManager.update_segments env playerX t
  refine ⟨e1920, ?_, ?_, ?_⟩
  · intro s hs
    rw [hseg] at hs
    have hl := chainFrom_left_ge a2 _ _ c1 s hs
    have hw := (chainFrom_contiguous a2 _ _ c1).2.2 s hs
    rw [hw]
    linarith
  · rw [hseg]
    intro hnil
    rw [hnil] at c1
    have : a2 = (t.generateLoop env playerX).m_currentX := c1
    linarith
  · obtain ⟨added, hadd⟩ := TerrainManager.generateLoop_segments env playerX t
    obtain ⟨removed, hrem, hall⟩ :=
      TerrainManager.evictSegments_prefix playerX (t.generateLoop env playerX).m_segments
    refine ⟨added, removed, hadd, ?_, ?_⟩
    · rw [← hadd, hseg]
      exact hrem
    · intro s hs
      rw [← e1920]
      exact hall s hs

/-- C11 at a concrete input: a fresh sample terrain updated far ahead, at
`playerX = 5000`, keeps a non-empty queue of segments that all end at or
ahead of `x = 3080`. -/
theorem segment_eviction_exact_witness :
    TerrainManager.Reachable samplePlatform (TerrainManager.new samplePlatform 0) ∧
    (∀ s ∈ ((TerrainManager.new samplePlatform 0).update samplePlatform 5000).m_segments,
      5000 - 1920 ≤ s.boundingRectRight) ∧
    ((TerrainManager.new samplePlatform 0).update samplePlatform 5000).m_segments ≠ [] :=
  have h := segment_eviction_exact samplePlatform (TerrainManager.new samplePlatform 0) 5000
    (TerrainManager.Reachable.init 0)
  ⟨TerrainManager.Reachable.init 0, h.2.1, h.2.2.1⟩

end Sojourn
